import Mathlib

/-!
Verification of the Instagram fetch cascade of this repository.

The TypeScript edge functions (supabase/functions/auto-fetch-instagram,
fetch-instagram-data, fetch-instagram-info, fetch-instagram-avatar) and the
persistence gate in the DynamicPage component are shallowly embedded below.
JavaScript numbers are modelled as exact naturals / rationals (the code only
ever manipulates follower counts far below 2^53, where IEEE doubles are
exact); regular-expression tests are embedded as executable character-list
matchers whose equivalence with the concrete regexes is argued pattern by
pattern in comments (all the patterns used are backtracking-free: every
greedy class is disjoint from the token that follows it).
-/

/-! ## Basic JavaScript-style string utilities -/

/-- Whitespace as used by the regex class \s and String.prototype.trim
(restricted to the ASCII whitespace actually occurring in the data). -/
def isWsChar (c : Char) : Bool :=
  c == ' ' || c == '\t' || c == '\n' || c == '\r'

/-- Model of String.prototype.trim. -/
def jsTrim (cs : List Char) : List Char :=
  ((cs.dropWhile isWsChar).reverse.dropWhile isWsChar).reverse

/-- Numeric value of a decimal digit character. -/
def digitVal (c : Char) : Nat := c.toNat - '0'.toNat

/-- Decimal value of a list of digit characters (most significant first). -/
def digitsVal (cs : List Char) : Nat :=
  cs.foldl (fun a c => 10 * a + digitVal c) 0

/-- The decimal digit character for a value below ten. -/
def digitChar (d : Nat) : Char := Char.ofNat ('0'.toNat + d)

/-- Fuel-driven rendering of a natural number as decimal digits
(most significant first); the fuel argument makes it structurally
recursive so that the kernel can evaluate it. -/
def toDigitsAux : Nat → Nat → List Char
  | 0, _ => []
  | fuel + 1, n =>
    if n < 10 then [digitChar n]
    else toDigitsAux fuel (n / 10) ++ [digitChar (n % 10)]

/-- Decimal digit characters of a natural number, as produced by the
JavaScript Number.prototype.toString / String(n) conversions. -/
def natToDigitChars (n : Nat) : List Char := toDigitsAux (n + 1) n

/-- Decimal string of a natural number. -/
def natToStr (n : Nat) : String := ⟨natToDigitChars n⟩

theorem digitsVal_snoc (xs : List Char) (c : Char) :
    digitsVal (xs ++ [c]) = 10 * digitsVal xs + digitVal c := by
  simp [digitsVal, List.foldl_append]

theorem digitVal_digitChar {d : Nat} (h : d < 10) :
    digitVal (digitChar d) = d := by
  interval_cases d <;> rfl

theorem digitChar_isDigit {d : Nat} (h : d < 10) :
    (digitChar d).isDigit = true := by
  interval_cases d <;> rfl

theorem digitsVal_toDigitsAux :
    ∀ fuel n, n < fuel → digitsVal (toDigitsAux fuel n) = n := by
  intro fuel
  induction fuel with
  | zero => intro n h; exact absurd h (Nat.not_lt_zero n)
  | succ fuel ih =>
    intro n h
    by_cases h10 : n < 10
    · simp only [toDigitsAux, if_pos h10]
      simpa [digitsVal] using digitVal_digitChar h10
    · have hn : 0 < n := Nat.pos_of_ne_zero (by omega)
      have hdiv : n / 10 < n := Nat.div_lt_self hn (by omega)
      have hfuel : n / 10 < fuel := by omega
      simp only [toDigitsAux, if_neg h10]
      rw [digitsVal_snoc, ih _ hfuel, digitVal_digitChar (Nat.mod_lt n (by omega))]
      omega

theorem digitsVal_natToDigitChars (n : Nat) :
    digitsVal (natToDigitChars n) = n :=
  digitsVal_toDigitsAux (n + 1) n (Nat.lt_succ_self n)

theorem toDigitsAux_all_digits :
    ∀ fuel n, (toDigitsAux fuel n).all (fun c => c.isDigit) = true := by
  intro fuel
  induction fuel with
  | zero => intro n; rfl
  | succ fuel ih =>
    intro n
    by_cases h10 : n < 10
    · simp only [toDigitsAux, if_pos h10, List.all_cons, List.all_nil,
        Bool.and_true]
      exact digitChar_isDigit h10
    · simp only [toDigitsAux, if_neg h10, List.all_append, List.all_cons,
        List.all_nil, Bool.and_true, Bool.and_eq_true]
      exact ⟨ih _, digitChar_isDigit (Nat.mod_lt n (by omega))⟩

theorem natToDigitChars_all_digits (n : Nat) :
    (natToDigitChars n).all (fun c => c.isDigit) = true :=
  toDigitsAux_all_digits (n + 1) n

theorem toDigitsAux_ne_nil :
    ∀ fuel n, 0 < fuel → toDigitsAux fuel n ≠ [] := by
  intro fuel n h
  match fuel, h with
  | fuel + 1, _ =>
    by_cases h10 : n < 10
    · simp [toDigitsAux, h10]
    · simp [toDigitsAux, h10]

theorem natToDigitChars_ne_nil (n : Nat) : natToDigitChars n ≠ [] :=
  toDigitsAux_ne_nil (n + 1) n (Nat.succ_pos n)

/-- Model of JavaScript String.prototype.includes (substring test). -/
def listIncludes (sub : List Char) : List Char → Bool
  | [] => sub.isEmpty
  | c :: rest => sub.isPrefixOf (c :: rest) || listIncludes sub rest

/-- Rounding half up after multiplying the exact rational num/den by mult,
the value JavaScript Math.round(base * mult) computes for a non-negative
base = num/den that is exactly representable. -/
def roundHalfUpMul (num den mult : Nat) : Nat :=
  (2 * num * mult + den) / (2 * den)

theorem roundHalfUpMul_eq_floor (num den mult : Nat) (hden : 0 < den) :
    roundHalfUpMul num den mult =
      ⌊(num : ℚ) / den * mult + 1 / 2⌋₊ := by
  have hden' : (den : ℚ) ≠ 0 := by positivity
  have h2 : ((2 * den : Nat) : ℚ) ≠ 0 := by positivity
  have key : (num : ℚ) / den * mult + 1 / 2
      = ((2 * num * mult + den : Nat) : ℚ) / ((2 * den : Nat) : ℚ) := by
    push_cast
    field_simp
    ring
  rw [roundHalfUpMul, key, Nat.floor_div_nat, Nat.floor_natCast]

/-! ## A small matcher for the concrete regular expressions of the source

Every unanchored regex in the source is a sequence of the tokens below.
All of them are backtracking-free: each greedy character-class run is
followed by a token that cannot consume a character of that class (a quote
after a non-quote run, a literal after a whitespace run, the end of the
pattern), so maximal munch computes exactly the JavaScript match. -/

inductive RTok where
  | lit (s : String) (ci : Bool)
  | wsStar
  | wsPlus
  | capCls (cls : Char → Bool)
  | capOne (cls : Char → Bool)
  | alts (ss : List String) (ci : Bool)

/-- Case-sensitive or case-insensitive (regex /i flag) character equality. -/
def charMatch (ci : Bool) (p c : Char) : Bool :=
  if ci then p.toLower == c.toLower else p == c

/-- Match a literal at the head of the input, returning the rest. -/
def litMatch (ci : Bool) : List Char → List Char → Option (List Char)
  | [], cs => some cs
  | _ :: _, [] => none
  | p :: ps, c :: cs => if charMatch ci p c then litMatch ci ps cs else none

/-- Try each alternative of a (?:a|b) group in order. -/
def altsMatch (ci : Bool) : List String → List Char → Option (List Char)
  | [], _ => none
  | s :: ss, cs =>
    match litMatch ci s.data cs with
    | some rest => some rest
    | none => altsMatch ci ss cs

/-- Match one token, returning the remaining input and captures produced. -/
def runTok : RTok → List Char → Option (List Char × List (List Char))
  | .lit s ci, cs => (litMatch ci s.data cs).map (fun r => (r, []))
  | .wsStar, cs => some (cs.dropWhile isWsChar, [])
  | .wsPlus, cs =>
    if (cs.takeWhile isWsChar).isEmpty then none
    else some (cs.dropWhile isWsChar, [])
  | .capCls cls, cs =>
    let r := cs.takeWhile cls
    if r.isEmpty then none else some (cs.dropWhile cls, [r])
  | .capOne cls, cs =>
    match cs with
    | [] => none
    | c :: rest => if cls c then some (rest, [[c]]) else none
  | .alts ss ci, cs => (altsMatch ci ss cs).map (fun r => (r, []))

/-- Match a token sequence at the head of the input. -/
def runToks : List RTok → List Char → Option (List Char × List (List Char))
  | [], cs => some (cs, [])
  | t :: ts, cs =>
    match runTok t cs with
    | none => none
    | some (rest, caps1) =>
      match runToks ts rest with
      | none => none
      | some (rest2, caps2) => some (rest2, caps1 ++ caps2)

/-- Leftmost search of a token sequence (the unanchored regex match),
returning the capture groups of the first match. -/
def searchToks (ts : List RTok) : List Char → Option (List (List Char))
  | [] => (runToks ts []).map (fun p => p.2)
  | c :: rest =>
    match runToks ts (c :: rest) with
    | some (_, caps) => some caps
    | none => searchToks ts rest

/-- First capture group of the leftmost match. -/
def firstCapture (ts : List RTok) (s : String) : Option (List Char) :=
  (searchToks ts s.data).bind List.head?

/-! ## Anchored shape tests (the ^...$ regexes of the source) -/

/-- The regex test ^\d[\d,]*$ (a pure-digit string, optionally with ","
separators, starting with a digit). -/
def isDigitCommaShape : List Char → Bool
  | [] => false
  | c :: rest => c.isDigit && rest.all (fun d => d.isDigit || d == ',')

/-- The regex test ^\d+$ (pure digits). -/
def isDigitOnlyShape (cs : List Char) : Bool :=
  !cs.isEmpty && cs.all (fun c => c.isDigit)

/-- Mantissa characters of the parseAiFollowers suffix regex ([\d.]+). -/
def isDigitDot (c : Char) : Bool := c.isDigit || c == '.'

/-- Mantissa characters of the formatter / gate suffix regex ([\d.,]+). -/
def isDigitDotComma (c : Char) : Bool := c.isDigit || c == '.' || c == ','

/-- A K/M suffix letter ([KkMm]). -/
def isKmChar (c : Char) : Bool :=
  c == 'K' || c == 'k' || c == 'M' || c == 'm'

/-- Anchored decomposition of ^(cls+)\s*([KkMm])$ into mantissa and suffix
letter. Exact because cls never contains whitespace or K/M letters, so the
greedy mantissa run cannot be shortened into a match. -/
def suffixDecomp (cls : Char → Bool) (cs : List Char) : Option (List Char × Char) :=
  let mant := cs.takeWhile cls
  if mant.isEmpty then none
  else
    match (cs.dropWhile cls).dropWhile isWsChar with
    | [c] => if isKmChar c then some (mant, c) else none
    | _ => none

/-- The regex test ^([\d.,]+)\s*([KkMm])$ used by the formatter and by the
persistence gate ("looks like an estimate suffix"). -/
def isSuffixShapeFmt (cs : List Char) : Bool :=
  (suffixDecomp isDigitDotComma cs).isSome

/-! ## Value Parser: parseAiFollowers (auto-fetch-instagram/index.ts 54-69) -/

/-- Value of the JavaScript Number() conversion on a non-empty string made
of digits and dots (the only strings it is applied to after the suffix
regex): finite exactly when the string has at most one dot and at least one
digit; result returned as numerator and denominator (a power of ten). -/
def jsNumberOfDigitsDots (cs : List Char) : Option (Nat × Nat) :=
  if cs.count '.' ≤ 1 && cs.any (fun c => c.isDigit) then
    some (digitsVal (cs.filter (fun c => c.isDigit)),
          10 ^ ((cs.dropWhile (fun c => !(c == '.'))).drop 1).length)
  else none

/-- Embedding of parseAiFollowers (auto-fetch-instagram/index.ts 54-69):
trim, accept ^\d[\d,]*$ as an integer with separators stripped, else accept
^([\d.]+)\s*([KkMm])$ as mantissa times 1,000 or 1,000,000 rounded
(Math.round), else null. -/
def parseAiFollowers (s : String) : Option Nat :=
  let raw := jsTrim s.data
  if isDigitCommaShape raw then
    some (digitsVal (raw.filter (fun c => !(c == ','))))
  else
    match suffixDecomp isDigitDot raw with
    | some (mant, suf) =>
      match jsNumberOfDigitsDots mant with
      | some (num, den) =>
        some (roundHalfUpMul num den (if suf == 'M' || suf == 'm' then 1000000 else 1000))
      | none => none
    | none => none

/-! ## Consensus Resolver (auto-fetch-instagram/index.ts 153-193) -/

/-- Exact-rational model of the float test
diff / Math.max(a, b, 1) <= 0.02 with diff = Math.abs(a - b). -/
def tolOk (a b : Nat) : Bool :=
  50 * (max a b - min a b) ≤ max (max a b) 1

/-- Inner loop of the pair scan: first later element agreeing with a. -/
def findAgree (a : Nat) : List Nat → Option Nat
  | [] => none
  | b :: rest => if tolOk a b then some b else findAgree a rest

/-- Outer loop of the pair scan over the sorted candidate list: the first
pair (i, j), i < j, in lexicographic scan order that agrees within
tolerance. -/
def scanPairs : List Nat → Option (Nat × Nat)
  | [] => none
  | a :: rest =>
    match findAgree a rest with
    | some b => some (a, b)
    | none => scanPairs rest

/-- Result record of tryAiConsensus (followersCount plus confidence). -/
structure ConsensusResult where
  followersCount : Option Nat
  confidence : String
deriving DecidableEq

/-- Embedding of the reconciliation part of tryAiConsensus
(auto-fetch-instagram/index.ts 180-192), taking the per-model parse results
(null for a failed model). The JavaScript numeric sort is embedded as an
insertion sort: on numbers any sort produces the same sorted permutation. -/
def tryAiConsensusResolve (results : List (Option Nat)) : ConsensusResult :=
  let values := results.filterMap id
  if values.length < 2 then { followersCount := values.head?, confidence := "low" }
  else
    let sorted := List.insertionSort (fun a b => a ≤ b) values
    match scanPairs sorted with
    | some (a, b) =>
      { followersCount := some ((a + b + 1) / 2), confidence := "high" }
    | none =>
      { followersCount := sorted.get? (sorted.length / 2), confidence := "low" }

/-- Specification-side list of all pairs of the list in the scan order of
the double loop (i outer, j inner, i < j). -/
def pairsInOrder : List Nat → List (Nat × Nat)
  | [] => []
  | a :: rest => rest.map (fun b => (a, b)) ++ pairsInOrder rest

/-- Specification-side "first pair found in sorted scan order whose
relative difference is within tolerance". -/
def firstAgreeing (l : List Nat) : Option (Nat × Nat) :=
  (pairsInOrder l).find? (fun p => tolOk p.1 p.2)

theorem findAgree_map (a : Nat) (l : List Nat) :
    (l.map (fun b => (a, b))).find? (fun p => tolOk p.1 p.2)
      = (findAgree a l).map (fun b => (a, b)) := by
  induction l with
  | nil => rfl
  | cons b rest ih =>
    by_cases h : tolOk a b <;> simp [findAgree, List.find?_cons, h, ih]

theorem scanPairs_eq_firstAgreeing (l : List Nat) :
    scanPairs l = firstAgreeing l := by
  induction l with
  | nil => rfl
  | cons a rest ih =>
    unfold firstAgreeing pairsInOrder
    rw [List.find?_append, findAgree_map]
    rcases hf : findAgree a rest with _ | b
    · simpa [scanPairs, hf, firstAgreeing] using ih
    · simp [scanPairs, hf]

theorem tolOk_iff_spec (a b : Nat) :
    (tolOk a b = true) ↔
      |(a : ℚ) - b| / max (max (a : ℚ) (b : ℚ)) 1 ≤ 2 / 100 := by
  have habs : |(a : ℚ) - b| = ((max a b - min a b : ℕ) : ℚ) := by
    rcases le_total a b with h | h
    · rw [max_eq_right h, min_eq_left h, Nat.cast_sub h, abs_sub_comm,
        abs_of_nonneg (by simp [sub_nonneg]; exact_mod_cast h)]
    · rw [max_eq_left h, min_eq_right h, Nat.cast_sub h,
        abs_of_nonneg (by simp [sub_nonneg]; exact_mod_cast h)]
  have hMcast : ((max (max a b) 1 : ℕ) : ℚ) = max (max (a : ℚ) (b : ℚ)) 1 := by
    simp [Nat.cast_max]
  have hMpos : (0 : ℚ) < ((max (max a b) 1 : ℕ) : ℚ) := by
    have : (1 : ℕ) ≤ max (max a b) 1 := le_max_right _ _
    exact_mod_cast Nat.lt_of_lt_of_le Nat.zero_lt_one this
  rw [habs, ← hMcast, div_le_div_iff₀ hMpos (by norm_num : (0 : ℚ) < 100)]
  have hiff : (max a b - min a b : ℕ) * 100 ≤ 2 * max (max a b) 1
      ↔ 50 * (max a b - min a b) ≤ max (max a b) 1 := by omega
  constructor
  · intro h
    have h' : 50 * (max a b - min a b) ≤ max (max a b) 1 := by
      simpa [tolOk, decide_eq_true_eq] using h
    exact_mod_cast hiff.mpr h'
  · intro h
    have h' : (max a b - min a b : ℕ) * 100 ≤ 2 * max (max a b) 1 := by
      exact_mod_cast h
    simpa [tolOk, decide_eq_true_eq] using hiff.mp h'

/-- C1: the consensus resolver returns confidence "low" with the single
candidate (or null) when fewer than two candidates parsed; with two or more
it sorts ascending and the first pair in sorted scan order within the 2 %
relative-difference tolerance gives confidence "high" and the rounded mean;
with no agreeing pair it returns the middle element of the sorted list with
confidence "low". The last two conjuncts tie the integer arithmetic of the
embedding to the specification's rational formulas (round((a+b)/2) and
relative difference at most 0.02). -/
theorem consensus_resolver_spec (results : List (Option Nat)) :
    ((results.filterMap id).length < 2 →
      tryAiConsensusResolve results =
        { followersCount := (results.filterMap id).head?, confidence := "low" }) ∧
    (2 ≤ (results.filterMap id).length →
      (List.insertionSort (fun a b => a ≤ b) (results.filterMap id)).Sorted (· ≤ ·) ∧
      (List.insertionSort (fun a b => a ≤ b) (results.filterMap id)).Perm
        (results.filterMap id) ∧
      tryAiConsensusResolve results =
        match firstAgreeing (List.insertionSort (fun a b => a ≤ b) (results.filterMap id)) with
        | some (a, b) => { followersCount := some ((a + b + 1) / 2), confidence := "high" }
        | none =>
          { followersCount :=
              (List.insertionSort (fun a b => a ≤ b) (results.filterMap id)).get?
                ((List.insertionSort (fun a b => a ≤ b) (results.filterMap id)).length / 2),
            confidence := "low" }) ∧
    (∀ a b : Nat, (a + b + 1) / 2 = ⌊((a : ℚ) + b) / 2 + 1 / 2⌋₊) ∧
    (∀ a b : Nat, tolOk a b = true ↔
      |(a : ℚ) - b| / max (max (a : ℚ) (b : ℚ)) 1 ≤ 2 / 100) := by
  refine ⟨?_, ?_, ?_, tolOk_iff_spec⟩
  · intro h
    unfold tryAiConsensusResolve
    rw [if_pos h]
  · intro h
    refine ⟨List.sorted_insertionSort _ _, List.perm_insertionSort _ _, ?_⟩
    unfold tryAiConsensusResolve
    rw [if_neg (not_lt.mpr h)]
    simp only [scanPairs_eq_firstAgreeing]
  · intro a b
    have h1 := roundHalfUpMul_eq_floor (a + b) 2 1 (by norm_num)
    have h2 : roundHalfUpMul (a + b) 2 1 = (a + b + 1) / 2 := by
      unfold roundHalfUpMul; omega
    rw [← h2, h1]
    congr 1
    push_cast
    ring

theorem consensus_resolver_spec_witness :
    tryAiConsensusResolve [some 10000, some 10100] =
      { followersCount := some 10050, confidence := "high" } ∧
    tryAiConsensusResolve [some 10000, some 20000] =
      { followersCount := some 20000, confidence := "low" } := by
  constructor
  · have h := (consensus_resolver_spec [some 10000, some 10100]).2.1 (by decide)
    rw [h.2.2]
    decide
  · have h := (consensus_resolver_spec [some 10000, some 20000]).2.1 (by decide)
    rw [h.2.2]
    decide

/-! ## Helper lemmas about shapes, whitespace and trimming -/

theorem dropWhile_eq_self_of_all_false {p : Char → Bool} :
    ∀ {l : List Char}, (∀ c ∈ l, p c = false) → l.dropWhile p = l := by
  intro l h
  match l with
  | [] => rfl
  | c :: r => simp [List.dropWhile, h c (List.mem_cons_self c r)]

theorem jsTrim_eq_self_of_no_ws {cs : List Char}
    (h : ∀ c ∈ cs, isWsChar c = false) : jsTrim cs = cs := by
  unfold jsTrim
  rw [dropWhile_eq_self_of_all_false h,
    dropWhile_eq_self_of_all_false (fun c hc => h c (List.mem_reverse.mp hc)),
    List.reverse_reverse]

theorem isWsChar_eq_false_of_isDigit {c : Char} (h : c.isDigit = true) :
    isWsChar c = false := by
  cases hw : isWsChar c
  · rfl
  · exfalso
    simp only [isWsChar, Bool.or_eq_true, beq_iff_eq] at hw
    rcases hw with ((h1 | h1) | h1) | h1 <;> subst h1 <;> exact absurd h (by decide)

theorem digitCommaShape_all {cs : List Char} (h : isDigitCommaShape cs = true) :
    ∀ c ∈ cs, (c.isDigit || c == ',') = true := by
  match cs with
  | [] => exact absurd h (by simp [isDigitCommaShape])
  | d :: rest =>
    simp only [isDigitCommaShape, Bool.and_eq_true, List.all_eq_true] at h
    intro c hc
    rcases List.mem_cons.mp hc with h1 | h1
    · subst h1; simp [h.1]
    · exact h.2 c h1

theorem digitCommaShape_no_ws {cs : List Char} (h : isDigitCommaShape cs = true) :
    ∀ c ∈ cs, isWsChar c = false := by
  intro c hc
  have := digitCommaShape_all h c hc
  rcases Bool.or_eq_true_iff.mp this with h1 | h1
  · exact isWsChar_eq_false_of_isDigit h1
  · rw [beq_iff_eq] at h1; subst h1; rfl

theorem isKmChar_not_digitComma {c : Char} (h : isKmChar c = true) :
    (c.isDigit || c == ',') = false := by
  simp only [isKmChar, Bool.or_eq_true, beq_iff_eq] at h
  rcases h with ((h1 | h1) | h1) | h1 <;> subst h1 <;> decide

theorem suffixDecomp_km_mem {cls : Char → Bool} {cs mant : List Char} {c : Char}
    (h : suffixDecomp cls cs = some (mant, c)) : c ∈ cs ∧ isKmChar c = true := by
  unfold suffixDecomp at h
  by_cases hm : (cs.takeWhile cls).isEmpty
  · simp [hm] at h
  · simp only [hm, Bool.false_eq_true, if_false] at h
    rcases hrest : (cs.dropWhile cls).dropWhile isWsChar with _ | ⟨c0, rest0⟩
    · rw [hrest] at h; simp at h
    · rw [hrest] at h
      match rest0, h with
      | [], h =>
        by_cases hk : isKmChar c0
        · simp only [hk, if_true, Option.some.injEq, Prod.mk.injEq] at h
          obtain ⟨-, rfl⟩ := h
          refine ⟨?_, hk⟩
          have h1 : c0 ∈ (cs.dropWhile cls).dropWhile isWsChar := by
            rw [hrest]; exact List.mem_singleton.mpr rfl
          exact ((List.dropWhile_sublist _).trans (List.dropWhile_sublist _)).mem h1
        · simp [hk] at h

theorem digitCommaShape_suffixDecomp_none {cls : Char → Bool} {cs : List Char}
    (h : isDigitCommaShape cs = true) : suffixDecomp cls cs = none := by
  rcases hd : suffixDecomp cls cs with _ | ⟨mant, c⟩
  · rfl
  · exfalso
    obtain ⟨hmem, hkm⟩ := suffixDecomp_km_mem hd
    have h1 := digitCommaShape_all h c hmem
    rw [isKmChar_not_digitComma hkm] at h1
    exact Bool.false_ne_true h1

/-! ## Persistence Gate (DynamicPage fetchInstagramFollowers, part_005 322-352) -/

inductive GateResult where
  | accepted (normalized : String)
  | rejectedEstimate (msg : String)
  | rejectedFormat (msg : String)
deriving DecidableEq

/-- Toast message for a rejected K/M estimate. -/
def gateEstimateMsg : String :=
  "抓取結果為估算值（如 11.1K），可能不準確。請改用手動輸入精確數字。"

/-- Toast message for a non-numeric fetch result. -/
def gateFormatMsg : String := "抓取到的追蹤者格式不正確，已避免自動覆蓋。"

/-- Embedding of the validation part of fetchInstagramFollowers
(part_005 lines 327-343): trim the fetched value, reject a K/M-suffixed
estimate, reject anything that is not ^\d[\d,]*$, otherwise accept with
commas stripped (the accepted string is what is persisted). -/
def persistGate (s : String) : GateResult :=
  let raw := jsTrim s.data
  if isSuffixShapeFmt raw then .rejectedEstimate gateEstimateMsg
  else if isDigitCommaShape raw then
    .accepted ⟨raw.filter (fun c => !(c == ','))⟩
  else .rejectedFormat gateFormatMsg

/-- The database update proposed by the gate: the normalized value on
acceptance, nothing on rejection (the stored count is left unchanged). -/
def gateProposedUpdate (s : String) : Option String :=
  match persistGate s with
  | .accepted n => some n
  | _ => none

/-- C3: the stored followers_count is updated iff the (trimmed) fetched
string matches the pure-digit-with-optional-comma pattern, and then the
persisted value is the string with separators stripped; a K/M-suffixed
value is rejected with the estimate error message and a non-numeric value
with the format error message, leaving the stored value unchanged; in
particular "11.1K" is rejected and "11100" accepted. -/
theorem persistence_gate_spec (s : String) :
    ((∃ n, gateProposedUpdate s = some n) ↔
      isDigitCommaShape (jsTrim s.data) = true) ∧
    (isDigitCommaShape (jsTrim s.data) = true →
      gateProposedUpdate s = some ⟨(jsTrim s.data).filter (fun c => !(c == ','))⟩) ∧
    (isSuffixShapeFmt (jsTrim s.data) = true →
      persistGate s = .rejectedEstimate gateEstimateMsg ∧ gateProposedUpdate s = none) ∧
    (isSuffixShapeFmt (jsTrim s.data) = false →
      isDigitCommaShape (jsTrim s.data) = false →
      persistGate s = .rejectedFormat gateFormatMsg ∧ gateProposedUpdate s = none) ∧
    persistGate "11.1K" = .rejectedEstimate gateEstimateMsg ∧
    gateProposedUpdate "11.1K" = none ∧
    gateProposedUpdate "11100" = some "11100" := by
  refine ⟨?_, ?_, ?_, ?_, by decide, by decide, by decide⟩
  · constructor
    · rintro ⟨n, hn⟩
      unfold gateProposedUpdate persistGate at hn
      by_cases h1 : isSuffixShapeFmt (jsTrim s.data)
      · simp [h1] at hn
      · by_cases h2 : isDigitCommaShape (jsTrim s.data)
        · exact h2
        · simp [h1, h2] at hn
    · intro h2
      have h1 : isSuffixShapeFmt (jsTrim s.data) = false := by
        unfold isSuffixShapeFmt
        rw [digitCommaShape_suffixDecomp_none h2]
        rfl
      refine ⟨String.mk ((jsTrim s.data).filter (fun c => !(c == ','))), ?_⟩
      unfold gateProposedUpdate persistGate
      simp [h1, h2]
  · intro h2
    have h1 : isSuffixShapeFmt (jsTrim s.data) = false := by
      unfold isSuffixShapeFmt
      rw [digitCommaShape_suffixDecomp_none h2]
      rfl
    unfold gateProposedUpdate persistGate
    simp [h1, h2]
  · intro h1
    unfold gateProposedUpdate persistGate
    simp [h1]
  · intro h1 h2
    unfold gateProposedUpdate persistGate
    simp [h1, h2]

theorem persistence_gate_spec_witness :
    gateProposedUpdate " 9,094 " = some "9094" ∧
    persistGate "1.5M" = .rejectedEstimate gateEstimateMsg := by
  constructor
  · have h := (persistence_gate_spec " 9,094 ").2.1 (by decide)
    rw [h]; decide
  · exact ((persistence_gate_spec "1.5M").2.2.1 (by decide)).1

theorem comma_beq_false_of_isDigit {c : Char} (h : c.isDigit = true) :
    (c == ',') = false := by
  cases hq : c == ','
  · rfl
  · rw [beq_iff_eq] at hq; subst hq; exact absurd h (by decide)

theorem isDigitCommaShape_natToDigitChars (n : Nat) :
    isDigitCommaShape (natToDigitChars n) = true := by
  obtain ⟨d, rest, hcons⟩ := List.exists_cons_of_ne_nil (natToDigitChars_ne_nil n)
  have hall := natToDigitChars_all_digits n
  rw [hcons] at hall ⊢
  simp only [List.all_cons, Bool.and_eq_true, List.all_eq_true] at hall
  simp only [isDigitCommaShape, Bool.and_eq_true, List.all_eq_true]
  exact ⟨hall.1, fun c hc => by simp [hall.2 c hc]⟩

theorem filter_comma_of_digits {cs : List Char}
    (h : cs.all (fun c => c.isDigit) = true) :
    cs.filter (fun c => !(c == ',')) = cs := by
  rw [List.filter_eq_self]
  intro c hc
  rw [List.all_eq_true] at h
  simp [comma_beq_false_of_isDigit (h c hc)]

/-- C4: parseAiFollowers maps a digits-with-optional-comma string to its
decimal integer (in particular it is a left inverse of decimal rendering),
maps a mantissa-with-K/M-suffix string to the mantissa times 1,000 (K/k)
or 1,000,000 (M/m) rounded half-up (the exact value of Math.round), and
maps any string matching neither pattern to null, with the concrete values
given in the specification. -/
theorem parse_ai_followers_spec :
    (∀ n : Nat, parseAiFollowers (natToStr n) = some n) ∧
    (∀ s : String, isDigitCommaShape s.data = true →
      parseAiFollowers s = some (digitsVal (s.data.filter (fun c => !(c == ','))))) ∧
    (∀ (s : String) (mant : List Char) (suf : Char) (num den : Nat),
      suffixDecomp isDigitDot (jsTrim s.data) = some (mant, suf) →
      jsNumberOfDigitsDots mant = some (num, den) →
      parseAiFollowers s =
        some ⌊(num : ℚ) / den *
          (if suf = 'M' ∨ suf = 'm' then (1000000 : ℚ) else 1000) + 1 / 2⌋₊) ∧
    (∀ s : String, isDigitCommaShape (jsTrim s.data) = false →
      suffixDecomp isDigitDot (jsTrim s.data) = none →
      parseAiFollowers s = none) ∧
    parseAiFollowers "1.5M" = some 1500000 ∧
    parseAiFollowers "15K" = some 15000 ∧
    parseAiFollowers "abc" = none ∧
    parseAiFollowers "" = none := by
  have htrimShape : ∀ cs : List Char, isDigitCommaShape cs = true → jsTrim cs = cs :=
    fun cs h => jsTrim_eq_self_of_no_ws (digitCommaShape_no_ws h)
  refine ⟨?_, ?_, ?_, ?_, by decide, by decide, by decide, by decide⟩
  · intro n
    have hshape := isDigitCommaShape_natToDigitChars n
    unfold parseAiFollowers natToStr
    simp only [htrimShape _ hshape, if_pos hshape]
    rw [filter_comma_of_digits (natToDigitChars_all_digits n),
      digitsVal_natToDigitChars]
  · intro s hshape
    unfold parseAiFollowers
    simp only [htrimShape _ hshape, if_pos hshape]
  · intro s mant suf num den hdec hnum
    have hshape : isDigitCommaShape (jsTrim s.data) = false := by
      cases hs : isDigitCommaShape (jsTrim s.data)
      · rfl
      · rw [digitCommaShape_suffixDecomp_none hs] at hdec; exact absurd hdec (by simp)
    have hden : 0 < den := by
      unfold jsNumberOfDigitsDots at hnum
      by_cases hc : (mant.count '.' ≤ 1 && mant.any (fun c => c.isDigit)) = true
      · rw [if_pos hc] at hnum
        simp only [Option.some.injEq, Prod.mk.injEq] at hnum
        rw [← hnum.2]
        positivity
      · rw [if_neg hc] at hnum; exact absurd hnum (by simp)
    have hmult : ((if suf == 'M' || suf == 'm' then 1000000 else 1000 : Nat))
        = (if suf = 'M' ∨ suf = 'm' then 1000000 else 1000) := by
      by_cases h : suf = 'M' ∨ suf = 'm'
      · rcases h with h | h <;> subst h <;> simp
      · have h1 : suf ≠ 'M' := fun hh => h (Or.inl hh)
        have h2 : suf ≠ 'm' := fun hh => h (Or.inr hh)
        simp [h, h1, h2]
    unfold parseAiFollowers
    simp only [if_neg (by simp [hshape] : ¬ isDigitCommaShape (jsTrim s.data) = true)]
    rw [hdec]
    dsimp only
    rw [hnum, hmult]
    dsimp only
    rw [roundHalfUpMul_eq_floor _ _ _ hden]
    congr 1
    rw [apply_ite (fun x : Nat => (x : ℚ))]
    norm_num
  · intro s hshape hdec
    unfold parseAiFollowers
    simp only [if_neg (by simp [hshape] : ¬ isDigitCommaShape (jsTrim s.data) = true)]
    rw [hdec]

theorem parse_ai_followers_spec_witness :
    parseAiFollowers (natToStr 9094) = some 9094 ∧
    parseAiFollowers "12,345" = some 12345 := by
  constructor
  · exact parse_ai_followers_spec.1 9094
  · have h := parse_ai_followers_spec.2.1 "12,345" (by decide)
    rw [h]; decide

/-! ## Formatters (part_005 formatFollowers 55-76 and
fetch-instagram-info formatFollowerCount 122-129) -/

/-- Digit run at the head of the input, as consumed by parseInt after sign
handling (NaN when there is no digit). -/
def jsParseIntDigits (cs : List Char) : Option Nat :=
  let ds := cs.takeWhile (fun c => c.isDigit)
  if ds.isEmpty then none else some (digitsVal ds)

/-- Model of parseInt(s, 10): skip leading whitespace, optional sign,
longest digit prefix; NaN (none) when no digit follows. -/
def jsParseInt (cs : List Char) : Option Int :=
  match cs.dropWhile isWsChar with
  | [] => none
  | c :: rest =>
    if c == '-' then (jsParseIntDigits rest).map (fun n => -(n : Int))
    else if c == '+' then (jsParseIntDigits rest).map (fun n => (n : Int))
    else (jsParseIntDigits (c :: rest)).map (fun n => (n : Int))

/-- Insert a comma after every three characters of the reversed digit list
(the en-US grouping of toLocaleString, working from the right). -/
def commasRev : List Char → List Char
  | a :: b :: c :: d :: rest => a :: b :: c :: ',' :: commasRev (d :: rest)
  | l => l

/-- Decimal digits with en-US thousands separators. -/
def groupCommas (ds : List Char) : List Char := (commasRev ds.reverse).reverse

/-- Model of n.toLocaleString('en-US') for a natural number. -/
def natToLocaleString (n : Nat) : String := ⟨groupCommas (natToDigitChars n)⟩

/-- Model of i.toLocaleString('en-US') for an integer. -/
def intToLocaleString (i : Int) : String :=
  ⟨(if i < 0 then ['-'] else []) ++ groupCommas (natToDigitChars i.natAbs)⟩

/-- Model of i.toString() for an integer. -/
def intDecStr (i : Int) : String :=
  ⟨(if i < 0 then ['-'] else []) ++ natToDigitChars i.natAbs⟩

/-- Round-to-nearest with ties to even of the rational num/den, the
rounding IEEE 754 applies to every arithmetic result. -/
def roundHalfEven (num den : Nat) : Nat :=
  if 2 * (num % den) < den then num / den
  else if den < 2 * (num % den) then num / den + 1
  else if (num / den) % 2 = 0 then num / den else num / den + 1

/-- Fuel-driven floor of the base-two logarithm (fuel n suffices). -/
def log2Fuel : Nat → Nat → Nat
  | 0, _ => 0
  | fuel + 1, n => if n < 2 then 0 else log2Fuel fuel (n / 2) + 1

/-- Floor of the base-two logarithm of a natural number. -/
def natLog2 (n : Nat) : Nat := log2Fuel n n

/-- The IEEE 754 binary64 value of the division num / den for
1 ≤ num / den (the only range the formatters divide in: both branch
guards give num ≥ den), as an exact rational (numerator, power-of-two
denominator): the quotient is rounded to nearest-even at 53 significant
bits, i.e. to a multiple of 2^(e-52) where 2^e ≤ num/den < 2^(e+1). -/
def jsDivDouble (num den : Nat) : Nat × Nat :=
  if 52 ≤ natLog2 (num / den) then
    (roundHalfEven num (den * 2 ^ (natLog2 (num / den) - 52)) *
       2 ^ (natLog2 (num / den) - 52), 1)
  else
    (roundHalfEven (num * 2 ^ (52 - natLog2 (num / den))) den,
     2 ^ (52 - natLog2 (num / den)))

/-- The tenths digit count of (num / den).toFixed(1): ECMA picks the
integer n10 with n10 / 10 closest to the double value, ties to the larger,
i.e. half-up rounding of ten times the rounded double quotient. -/
def jsToFixed1Tenths (num den : Nat) : Nat :=
  roundHalfUpMul (jsDivDouble num den).1 (jsDivDouble num den).2 10

/-- Model of (num / den).toFixed(1): the double quotient printed with one
decimal digit (integer part, dot, tenths digit). -/
def jsToFixed1 (num den : Nat) : String :=
  ⟨natToDigitChars (jsToFixed1Tenths num den / 10) ++ '.' ::
    natToDigitChars (jsToFixed1Tenths num den % 10)⟩

/-- Embedding of formatFollowers (part_005 lines 55-76): an already
K/M-suffixed value is returned with the suffix uppercased; otherwise the
comma-stripped value is parsed with parseInt (returning the input verbatim
on NaN); values below 10,000 render with en-US separators, values at least
1,000,000 as (n/1e6).toFixed(1)+"M", values at least 1,000 as
(n/1e3).toFixed(1)+"K" (note: toFixed keeps a trailing ".0" here). -/
def formatFollowers (count : Option String) : String :=
  match count with
  | none => ""
  | some c =>
    if c == "" then ""
    else
      match suffixDecomp isDigitDotComma c.data with
      | some (numPart, suf) => ⟨numPart ++ [suf.toUpper]⟩
      | none =>
        match jsParseInt (c.data.filter (fun ch => !(ch == ','))) with
        | none => c
        | some i =>
          if i < 10000 then intToLocaleString i
          else if i ≥ 1000000 then jsToFixed1 i.toNat 1000000 ++ "M"
          else if i ≥ 1000 then jsToFixed1 i.toNat 1000 ++ "K"
          else intDecStr i

/-- Removal of a trailing ".0" (the .replace(/\.0$/, "") of
formatFollowerCount). -/
def stripDot0 (s : String) : String :=
  match s.data.reverse with
  | '0' :: '.' :: rest => ⟨rest.reverse⟩
  | _ => s

/-- Embedding of formatFollowerCount (fetch-instagram-info/index.ts
122-129): abbreviates every count at least 1,000 with one decimal digit and
strips a trailing ".0". -/
def formatFollowerCount (count : Nat) : String :=
  if count ≥ 1000000 then stripDot0 (jsToFixed1 count 1000000) ++ "M"
  else if count ≥ 1000 then stripDot0 (jsToFixed1 count 1000) ++ "K"
  else natToStr count

theorem dropWhile_eq_nil_of_all {p : Char → Bool} :
    ∀ {l : List Char}, (∀ c ∈ l, p c = true) → l.dropWhile p = [] := by
  intro l h
  induction l with
  | nil => rfl
  | cons c r ih =>
    rw [List.dropWhile_cons, if_pos (h c (List.mem_cons_self c r))]
    exact ih fun d hd => h d (List.mem_cons_of_mem c hd)

theorem takeWhile_eq_self_of_all {p : Char → Bool} :
    ∀ {l : List Char}, (∀ c ∈ l, p c = true) → l.takeWhile p = l := by
  intro l h
  induction l with
  | nil => rfl
  | cons c r ih =>
    rw [List.takeWhile_cons, if_pos (h c (List.mem_cons_self c r))]
    rw [ih fun d hd => h d (List.mem_cons_of_mem c hd)]

theorem suffixDecomp_none_of_all {cls : Char → Bool} {cs : List Char}
    (h : ∀ c ∈ cs, cls c = true) : suffixDecomp cls cs = none := by
  unfold suffixDecomp
  rw [dropWhile_eq_nil_of_all h]
  by_cases hm : (cs.takeWhile cls).isEmpty
  · simp [hm]
  · simp [hm]

theorem beq_eq_false_of_isDigit {c x : Char} (h : c.isDigit = true)
    (hx : x.isDigit = false) : (c == x) = false := by
  cases heq : c == x
  · rfl
  · rw [beq_iff_eq] at heq
    subst heq
    rw [h] at hx
    exact Bool.noConfusion hx

theorem mk_beq_empty_eq_false {cs : List Char} (h : cs ≠ []) :
    ((⟨cs⟩ : String) == "") = false := by
  cases heq : (⟨cs⟩ : String) == ""
  · rfl
  · rw [beq_iff_eq] at heq
    have hdata := congrArg String.data heq
    exact absurd hdata h

theorem jsParseInt_digits {cs : List Char} (hne : cs ≠ [])
    (hall : cs.all (fun c => c.isDigit) = true) :
    jsParseInt cs = some ((digitsVal cs : Nat) : Int) := by
  have hallm := List.all_eq_true.mp hall
  obtain ⟨d, rest, rfl⟩ := List.exists_cons_of_ne_nil hne
  have hd : d.isDigit = true := hallm d (List.mem_cons_self d rest)
  have hnws : ∀ c ∈ d :: rest, isWsChar c = false :=
    fun c hc => isWsChar_eq_false_of_isDigit (hallm c hc)
  unfold jsParseInt
  rw [dropWhile_eq_self_of_all_false hnws]
  dsimp only
  rw [show ((d == '-') = false) from beq_eq_false_of_isDigit hd (by decide),
    show ((d == '+') = false) from beq_eq_false_of_isDigit hd (by decide)]
  simp only [Bool.false_eq_true, if_false]
  unfold jsParseIntDigits
  rw [takeWhile_eq_self_of_all hallm]
  simp

theorem formatFollowers_natToStr (n : Nat) :
    formatFollowers (some (natToStr n)) =
      if n < 10000 then natToLocaleString n
      else if n ≥ 1000000 then jsToFixed1 n 1000000 ++ "M"
      else jsToFixed1 n 1000 ++ "K" := by
  have hall := natToDigitChars_all_digits n
  have hallm := List.all_eq_true.mp hall
  unfold formatFollowers natToStr
  dsimp only
  rw [mk_beq_empty_eq_false (natToDigitChars_ne_nil n)]
  simp only [Bool.false_eq_true, if_false]
  rw [suffixDecomp_none_of_all
    (fun c hc => by simp [isDigitDotComma, hallm c hc])]
  dsimp only
  rw [filter_comma_of_digits hall,
    jsParseInt_digits (natToDigitChars_ne_nil n) hall]
  dsimp only
  rw [digitsVal_natToDigitChars]
  by_cases h1 : n < 10000
  · rw [if_pos (show ((n : Int) < 10000) by exact_mod_cast h1), if_pos h1]
    unfold intToLocaleString natToLocaleString
    rw [if_neg (not_lt.mpr (Int.natCast_nonneg n))]
    simp
  · rw [if_neg (show ¬ ((n : Int) < 10000) by exact_mod_cast h1), if_neg h1]
    by_cases h2 : n ≥ 1000000
    · rw [if_pos (show ((n : Int) ≥ 1000000) by exact_mod_cast h2), if_pos h2,
        Int.toNat_natCast]
    · rw [if_neg (show ¬ ((n : Int) ≥ 1000000) by exact_mod_cast h2), if_neg h2]
      have h3 : (n : Int) ≥ 1000 := by exact_mod_cast (show n ≥ 1000 by omega)
      rw [if_pos h3, Int.toNat_natCast]

/-- C5 counterexample: the claim states formatFollowers("15000") = "15K",
but the DynamicPage formatter uses toFixed(1) without stripping the
trailing ".0" and produces "15.0K". -/
theorem format_followers_counterexample :
    formatFollowers (some "15000") = "15.0K" ∧ ("15.0K" : String) ≠ "15K" :=
  ⟨by decide, by decide⟩

theorem roundHalfEven_close (a b : Nat) (hb : 0 < b) :
    |(a : ℚ) / b - roundHalfEven a b| ≤ 1 / 2 := by
  have hb' : (0 : ℚ) < b := by exact_mod_cast hb
  have hc : (b : ℚ) * (a / b : ℕ) + ((a % b : ℕ) : ℚ) = (a : ℚ) := by
    exact_mod_cast Nat.div_add_mod a b
  have hrb : a % b < b := Nat.mod_lt a hb
  have e1 : (a : ℚ) / b - (a / b : ℕ) = ((a % b : ℕ) : ℚ) / b := by
    field_simp
    linarith [hc]
  have ht0 : (0 : ℚ) ≤ ((a % b : ℕ) : ℚ) / b := by positivity
  have ht1 : ((a % b : ℕ) : ℚ) / b < 1 := by
    rw [div_lt_one hb']
    exact_mod_cast hrb
  have hup : b ≤ 2 * (a % b) →
      |(a : ℚ) / b - ((a / b : ℕ) + 1 : ℚ)| ≤ 1 / 2 := by
    intro h2r
    have e2 : (a : ℚ) / b - ((a / b : ℕ) + 1 : ℚ) = ((a % b : ℕ) : ℚ) / b - 1 := by
      linear_combination e1
    have hhalf : (1 : ℚ) / 2 ≤ ((a % b : ℕ) : ℚ) / b := by
      rw [div_le_div_iff₀ (by norm_num : (0 : ℚ) < 2) hb']
      have hq : (b : ℚ) ≤ 2 * ((a % b : ℕ) : ℚ) := by exact_mod_cast h2r
      linarith
    rw [e2, abs_of_nonpos (by linarith)]
    linarith
  have hdown : 2 * (a % b) ≤ b →
      |(a : ℚ) / b - ((a / b : ℕ) : ℚ)| ≤ 1 / 2 := by
    intro h2r
    rw [e1, abs_of_nonneg ht0]
    have hq : 2 * ((a % b : ℕ) : ℚ) ≤ (b : ℚ) := by exact_mod_cast h2r
    rw [div_le_div_iff₀ hb' (by norm_num : (0 : ℚ) < 2)]
    linarith
  unfold roundHalfEven
  split_ifs with h1 h2 h3
  · exact hdown (le_of_lt h1)
  · push_cast
    exact hup (le_of_lt h2)
  · exact hdown (Nat.le_of_not_lt h2)
  · push_cast
    exact hup (Nat.le_of_not_lt h1)

theorem jsDivDouble_den_pos (num den : Nat) : 0 < (jsDivDouble num den).2 := by
  unfold jsDivDouble
  by_cases h : 52 ≤ natLog2 (num / den)
  · rw [if_pos h]
    exact Nat.one_pos
  · rw [if_neg h]
    exact pow_pos (by norm_num) _

theorem jsDivDouble_close (num den : Nat) (hden : 0 < den) :
    |(num : ℚ) / den -
        ((jsDivDouble num den).1 : ℚ) / ((jsDivDouble num den).2 : ℚ)| ≤
      (2 : ℚ) ^ natLog2 (num / den) / 2 ^ 53 := by
  unfold jsDivDouble
  by_cases h52 : 52 ≤ natLog2 (num / den)
  · rw [if_pos h52]
    dsimp only
    have hb : (0 : ℕ) < den * 2 ^ (natLog2 (num / den) - 52) :=
      Nat.mul_pos hden (pow_pos (by norm_num) _)
    have hclose := roundHalfEven_close num (den * 2 ^ (natLog2 (num / den) - 52)) hb
    have hfac : (num : ℚ) / den -
        ((roundHalfEven num (den * 2 ^ (natLog2 (num / den) - 52)) *
            2 ^ (natLog2 (num / den) - 52) : ℕ) : ℚ) / ((1 : ℕ) : ℚ)
        = 2 ^ (natLog2 (num / den) - 52) *
          ((num : ℚ) / ((den * 2 ^ (natLog2 (num / den) - 52) : ℕ) : ℚ) -
            roundHalfEven num (den * 2 ^ (natLog2 (num / den) - 52))) := by
      have hd : (den : ℚ) ≠ 0 := by positivity
      push_cast
      field_simp
      ring
    rw [hfac, abs_mul,
      abs_of_nonneg (by positivity : (0 : ℚ) ≤ 2 ^ (natLog2 (num / den) - 52))]
    refine le_trans (mul_le_mul_of_nonneg_left hclose (by positivity)) ?_
    rw [show natLog2 (num / den) = (natLog2 (num / den) - 52) + 52 by omega,
      pow_add, mul_div_assoc]
    rw [show ((2 : ℚ) ^ 52 / 2 ^ 53) = 1 / 2 by norm_num]
    rw [show (natLog2 (num / den) - 52) + 52 - 52 = natLog2 (num / den) - 52 by omega]
  · rw [if_neg h52]
    dsimp only
    have hclose :=
      roundHalfEven_close (num * 2 ^ (52 - natLog2 (num / den))) den hden
    have hfac : (num : ℚ) / den -
        ((roundHalfEven (num * 2 ^ (52 - natLog2 (num / den))) den : ℕ) : ℚ) /
          ((2 ^ (52 - natLog2 (num / den)) : ℕ) : ℚ)
        = (1 / 2 ^ (52 - natLog2 (num / den))) *
          (((num * 2 ^ (52 - natLog2 (num / den)) : ℕ) : ℚ) / den -
            roundHalfEven (num * 2 ^ (52 - natLog2 (num / den))) den) := by
      have hd : (den : ℚ) ≠ 0 := by positivity
      push_cast
      field_simp
      ring_nf
      exact Or.inl trivial
    rw [hfac, abs_mul,
      abs_of_nonneg (by positivity :
        (0 : ℚ) ≤ 1 / 2 ^ (52 - natLog2 (num / den)))]
    refine le_trans (mul_le_mul_of_nonneg_left hclose (by positivity)) ?_
    have hpow : (2 : ℚ) ^ 53 =
        2 ^ natLog2 (num / den) * 2 ^ ((52 - natLog2 (num / den)) + 1) := by
      rw [← pow_add]
      congr 1
      omega
    have hne : (2 : ℚ) ^ natLog2 (num / den) ≠ 0 := by positivity
    rw [hpow, div_mul_eq_div_div, div_self hne, pow_succ]
    rw [show (1 : ℚ) / (2 ^ (52 - natLog2 (num / den)) * 2) =
      1 / 2 ^ (52 - natLog2 (num / den)) * (1 / 2) by ring]

/-- C5 amended: formatFollowers (part_005) renders values under 10,000
with en-US thousands separators (formatFollowers("9094") = "9,094");
values at least 1,000,000 render as X.YM and other values at least 1,000
as X.YK with exactly one decimal digit: toFixed(1) applied to the IEEE
binary64 quotient, so the printed tenths are the half-up rounding of ten
times the rounded double, which itself is within half an ulp of the exact
quotient (the double for 10350/1000 lies just below 10.35, so
formatFollowers("10350") = "10.3K"); the trailing ".0" is kept
(formatFollowers("15000") = "15.0K") and is stripped only by
formatFollowerCount in fetch-instagram-info, whose output never ends in
".0" (formatFollowerCount(15000) = "15K", formatFollowerCount(1500000) =
"1.5M", formatFollowerCount(1150000) = "1.1M"), but which abbreviates
every value at least 1,000, including those under 10,000
(formatFollowerCount(9094) = "9.1K"). -/
theorem format_followers_amended :
    (∀ n : Nat, n < 10000 → formatFollowers (some (natToStr n)) = natToLocaleString n) ∧
    (∀ n : Nat, n ≥ 1000000 →
      formatFollowers (some (natToStr n)) = jsToFixed1 n 1000000 ++ "M") ∧
    (∀ n : Nat, 10000 ≤ n → n < 1000000 →
      formatFollowers (some (natToStr n)) = jsToFixed1 n 1000 ++ "K") ∧
    (∀ num den : Nat,
      jsToFixed1 num den =
        ⟨natToDigitChars
            (⌊((jsDivDouble num den).1 : ℚ) / ((jsDivDouble num den).2 : ℚ) * 10 +
                1 / 2⌋₊ / 10) ++
          '.' ::
          natToDigitChars
            (⌊((jsDivDouble num den).1 : ℚ) / ((jsDivDouble num den).2 : ℚ) * 10 +
                1 / 2⌋₊ % 10)⟩) ∧
    (∀ num den : Nat, 0 < den →
      |(num : ℚ) / den -
          ((jsDivDouble num den).1 : ℚ) / ((jsDivDouble num den).2 : ℚ)| ≤
        (2 : ℚ) ^ natLog2 (num / den) / 2 ^ 53) ∧
    (∀ n : Nat, ¬ (['.', '0'] <:+ (formatFollowerCount n).data)) ∧
    formatFollowers (some "9094") = "9,094" ∧
    formatFollowers (some "15000") = "15.0K" ∧
    formatFollowers (some "1500000") = "1.5M" ∧
    formatFollowers (some "10350") = "10.3K" ∧
    formatFollowerCount 15000 = "15K" ∧
    formatFollowerCount 1500000 = "1.5M" ∧
    formatFollowerCount 9094 = "9.1K" ∧
    formatFollowerCount 1150000 = "1.1M" := by
  refine ⟨?_, ?_, ?_, ?_, fun num den hden => jsDivDouble_close num den hden, ?_,
    by decide, by decide, by decide, by decide, by decide, by decide, by decide,
    by decide⟩
  · intro n h1
    rw [formatFollowers_natToStr, if_pos h1]
  · intro n h2
    rw [formatFollowers_natToStr, if_neg (show ¬ n < 10000 by omega), if_pos h2]
  · intro n h1 h2
    rw [formatFollowers_natToStr, if_neg (show ¬ n < 10000 by omega),
      if_neg (show ¬ n ≥ 1000000 by omega)]
  · intro num den
    unfold jsToFixed1 jsToFixed1Tenths
    rw [roundHalfUpMul_eq_floor _ _ _ (jsDivDouble_den_pos num den)]
    norm_num
  · intro n hsuf
    by_cases h1 : n ≥ 1000000
    · unfold formatFollowerCount at hsuf
      rw [if_pos h1] at hsuf
      obtain ⟨t, ht⟩ := hsuf
      rw [String.data_append] at ht
      have hlast := congrArg List.getLast? ht
      rw [show t ++ ['.', '0'] = (t ++ ['.']) ++ ['0'] by simp,
        List.getLast?_concat, List.getLast?_concat] at hlast
      exact absurd hlast (by decide)
    · by_cases h2 : n ≥ 1000
      · unfold formatFollowerCount at hsuf
        rw [if_neg h1, if_pos h2] at hsuf
        obtain ⟨t, ht⟩ := hsuf
        rw [String.data_append] at ht
        have hlast := congrArg List.getLast? ht
        rw [show t ++ ['.', '0'] = (t ++ ['.']) ++ ['0'] by simp,
          List.getLast?_concat, List.getLast?_concat] at hlast
        exact absurd hlast (by decide)
      · unfold formatFollowerCount at hsuf
        rw [if_neg h1, if_neg h2] at hsuf
        have hmem : '.' ∈ natToDigitChars n :=
          hsuf.sublist.mem (by simp)
        have := List.all_eq_true.mp (natToDigitChars_all_digits n) '.' hmem
        exact absurd this (by decide)

theorem format_followers_amended_witness :
    formatFollowers (some (natToStr 9094)) = natToLocaleString 9094 ∧
    formatFollowers (some (natToStr 1500000)) = jsToFixed1 1500000 1000000 ++ "M" :=
  ⟨format_followers_amended.1 9094 (by norm_num),
   format_followers_amended.2.1 1500000 (by norm_num)⟩

/-! ## Handle extraction (fetch-instagram-data 7-13, fetch-instagram-info
24-32, part_005 48-52) -/

/-- Leftmost search for /instagram\.com\/([cls]+)/: at each position try
the literal and then a non-empty greedy class run (the capture). Exact for
these regexes: the class excludes '/' so the greedy run cannot be shortened
into a match, and a position where the literal matches but no class
character follows fails there and scanning resumes one character later,
exactly as the JavaScript engine does. -/
def usernameSearch (cls : Char → Bool) : List Char → Option (List Char)
  | [] => none
  | c :: rest =>
    match litMatch false "instagram.com/".data (c :: rest) with
    | some r1 =>
      if (r1.takeWhile cls).isEmpty then usernameSearch cls rest
      else some (r1.takeWhile cls)
    | none => usernameSearch cls rest

theorem usernameSearch_spec {cls : Char → Bool} :
    ∀ {cs hh}, usernameSearch cls cs = some hh →
      hh ≠ [] ∧ ∀ c ∈ hh, cls c = true := by
  intro cs
  induction cs with
  | nil => intro hh h; exact absurd h (by simp [usernameSearch])
  | cons c0 rest ih =>
    intro hh h
    unfold usernameSearch at h
    rcases hm : litMatch false "instagram.com/".data (c0 :: rest) with _ | r1 <;>
      rw [hm] at h
    · exact ih h
    · dsimp only at h
      by_cases he : (r1.takeWhile cls).isEmpty
      · rw [if_pos he] at h; exact ih h
      · rw [if_neg he] at h
        rw [Option.some.injEq] at h
        subst h
        exact ⟨fun hn => he (by simp [hn]), fun c hc => List.mem_takeWhile_imp hc⟩

/-- Character class [^/?#] of the fetch-instagram-data username regex. -/
def notSlashQmHash (c : Char) : Bool := !(c == '/' || c == '?' || c == '#')

/-- Character class [^/?] of the fetch-instagram-info and DynamicPage
username regexes. -/
def notSlashQm (c : Char) : Bool := !(c == '/' || c == '?')

/-- Reserved non-profile path segments rejected by fetch-instagram-data. -/
def reservedSegments : List String := ["p", "reel", "stories", "explore"]

/-- Embedding of getInstagramUsername (fetch-instagram-data/index.ts 7-13):
regex /instagram\.com\/([^\/?#]+)/ plus rejection of reserved segments. -/
def dataGetUsername (url : String) : Option String :=
  match usernameSearch notSlashQmHash url.data with
  | some h =>
    if !h.isEmpty && !(reservedSegments.contains ⟨h⟩) then some ⟨h⟩ else none
  | none => none

/-- Embedding of the username extraction of the fetch-instagram-info
handler (index.ts 24-32): regex /instagram\.com\/([^\/?]+)/ with no
reserved-segment filter. -/
def infoGetUsername (url : String) : Option String :=
  match usernameSearch notSlashQm url.data with
  | some h => some ⟨h⟩
  | none => none

/-- Embedding of getInstagramUsername (part_005 lines 48-52): same regex as
fetch-instagram-info, null-tolerant input, no reserved-segment filter. -/
def part5GetUsername (url : Option String) : Option String :=
  match url with
  | none => none
  | some u =>
    match usernameSearch notSlashQm u.data with
    | some h => some ⟨h⟩
    | none => none

/-- C6 counterexample: the handle extractors of fetch-instagram-info and of
the DynamicPage component return the reserved path segment "p" for a post
URL; only the fetch-instagram-data extractor filters reserved segments. -/
theorem handle_reserved_counterexample :
    infoGetUsername "https://www.instagram.com/p/abc123" = some "p" ∧
    part5GetUsername (some "https://www.instagram.com/p/abc123") = some "p" ∧
    ("p" : String) ∈ reservedSegments ∧
    dataGetUsername "https://www.instagram.com/p/abc123" = none := by
  refine ⟨by decide, by decide, by decide, by decide⟩

/-- C6 amended: a non-null extracted handle is always a non-empty string;
the reserved-segment rejection ("p", "reel", "stories", "explore") is
performed only by the fetch-instagram-data extractor, while the extractors
in fetch-instagram-info and in the DynamicPage component return the first
path segment even when it is reserved. -/
theorem handle_extraction_amended :
    (∀ url h, dataGetUsername url = some h →
      h ≠ "" ∧ h ∉ reservedSegments) ∧
    (∀ url h, infoGetUsername url = some h → h ≠ "") ∧
    (∀ url h, part5GetUsername (some url) = some h → h ≠ "") := by
  refine ⟨?_, ?_, ?_⟩
  · intro url h hu
    unfold dataGetUsername at hu
    rcases hs : usernameSearch notSlashQmHash url.data with _ | hh <;> rw [hs] at hu
    · exact absurd hu (by simp)
    · dsimp only at hu
      by_cases hc : (!hh.isEmpty && !(reservedSegments.contains (⟨hh⟩ : String))) = true
      · rw [if_pos hc] at hu
        rw [Option.some.injEq] at hu
        subst hu
        obtain ⟨hne, -⟩ := usernameSearch_spec hs
        rw [Bool.and_eq_true] at hc
        obtain ⟨-, h2⟩ := hc
        constructor
        · intro hemp
          exact hne (congrArg String.data hemp)
        · intro hmem
          simp only [reservedSegments, List.mem_cons, List.mem_singleton,
            List.not_mem_nil, or_false] at hmem
          rcases hmem with h1 | h1 | h1 | h1 <;> rw [h1] at h2 <;>
            exact absurd h2 (by decide)
      · rw [if_neg hc] at hu
        exact absurd hu (by simp)
  · intro url h hu
    unfold infoGetUsername at hu
    rcases hs : usernameSearch notSlashQm url.data with _ | hh <;> rw [hs] at hu
    · exact absurd hu (by simp)
    · rw [Option.some.injEq] at hu
      subst hu
      obtain ⟨hne, -⟩ := usernameSearch_spec hs
      intro hemp
      exact hne (congrArg String.data hemp)
  · intro url h hu
    unfold part5GetUsername at hu
    dsimp only at hu
    rcases hs : usernameSearch notSlashQm url.data with _ | hh <;> rw [hs] at hu
    · exact absurd hu (by simp)
    · rw [Option.some.injEq] at hu
      subst hu
      obtain ⟨hne, -⟩ := usernameSearch_spec hs
      intro hemp
      exact hne (congrArg String.data hemp)

theorem handle_extraction_amended_witness :
    ("nasa" : String) ≠ "" ∧ ("nasa" : String) ∉ reservedSegments :=
  handle_extraction_amended.1 "https://www.instagram.com/nasa?hl=en" "nasa"
    (by decide)

/-! ## HTML extractors (auto-fetch-instagram 11-52, fetch-instagram-data
16-56, fetch-instagram-avatar 7-38) -/

/-- Character class [^"] of the capture groups in the avatar patterns. -/
def nonQuote (c : Char) : Bool := !(c == '"')

/-- Fuel-driven model of String.prototype.replace with a global literal
pattern; one unit of fuel per consumed input character suffices. -/
def replaceAllFuel (pat rep : List Char) : Nat → List Char → List Char
  | _, [] => []
  | 0, cs => cs
  | fuel + 1, c :: cs' =>
    if !pat.isEmpty && pat.isPrefixOf (c :: cs') then
      rep ++ replaceAllFuel pat rep fuel ((c :: cs').drop pat.length)
    else c :: replaceAllFuel pat rep fuel cs'

/-- String.prototype.replace(/pat/g, rep) for a literal pattern. -/
def jsReplaceAll (pat rep : String) (cs : List Char) : List Char :=
  replaceAllFuel pat.data rep.data cs.length cs

/-- The unescaping chain applied to a matched avatar URL:
.replace(/\\u0026/g,'&').replace(/\\u003d/g,'=').replace(/\\\//g,'/')
.replace(/&amp;/g,'&'). -/
def jsUnescape (cs : List Char) : List Char :=
  jsReplaceAll "&amp;" "&"
    (jsReplaceAll "\\/" "/"
      (jsReplaceAll "\\u003d" "="
        (jsReplaceAll "\\u0026" "&" cs)))

/-- The CDN validation of extractProfilePicFromHtml: the URL must contain
"cdninstagram.com", "fbcdn.net" or merely the substring "instagram". -/
def cdnGuard (url : List Char) : Bool :=
  listIncludes "cdninstagram.com".data url ||
    listIncludes "fbcdn.net".data url ||
    listIncludes "instagram".data url

/-- The seven avatar regex patterns of extractProfilePicFromHtml, in source
order (og:image meta tags, embedded JSON fields, twitter:image meta tags);
the meta-tag patterns carry the /i flag. -/
def picPatterns : List (List RTok) :=
  [ [.lit "<meta" true, .wsPlus, .lit "property=\"og:image\"" true, .wsPlus,
     .lit "content=\"" true, .capCls nonQuote, .lit "\"" true],
    [.lit "<meta" true, .wsPlus, .lit "content=\"" true, .capCls nonQuote,
     .lit "\"" true, .wsPlus, .lit "property=\"og:image\"" true],
    [.lit "\"profile_pic_url_hd\"" false, .wsStar, .lit ":" false, .wsStar,
     .lit "\"" false, .capCls nonQuote, .lit "\"" false],
    [.lit "\"profile_pic_url\"" false, .wsStar, .lit ":" false, .wsStar,
     .lit "\"" false, .capCls nonQuote, .lit "\"" false],
    [.lit "\"hd_profile_pic_url_info\"" false, .wsStar, .lit ":" false, .wsStar,
     .lit "\x7b" false, .wsStar, .lit "\"url\"" false, .wsStar, .lit ":" false,
     .wsStar, .lit "\"" false, .capCls nonQuote, .lit "\"" false],
    [.lit "<meta" true, .wsPlus, .lit "name=\"twitter:image\"" true, .wsPlus,
     .lit "content=\"" true, .capCls nonQuote, .lit "\"" true],
    [.lit "<meta" true, .wsPlus, .lit "content=\"" true, .capCls nonQuote,
     .lit "\"" true, .wsPlus, .lit "name=\"twitter:image\"" true] ]

/-- Pattern loop of extractProfilePicFromHtml: first pattern whose capture,
after unescaping, passes the CDN guard wins; a failing candidate falls
through to the next pattern. -/
def extractPicGo : List (List RTok) → List Char → Option String
  | [], _ => none
  | p :: ps, html =>
    match (searchToks p html).bind List.head? with
    | some cap =>
      if cdnGuard (jsUnescape cap) then some ⟨jsUnescape cap⟩
      else extractPicGo ps html
    | none => extractPicGo ps html

/-- Embedding of extractProfilePicFromHtml (auto-fetch-instagram/index.ts
11-36; fetch-instagram-avatar/index.ts 7-38 is identical). -/
def extractProfilePicFromHtml (html : String) : Option String :=
  extractPicGo picPatterns html.data

/-- The three embedded-JSON follower patterns shared by
extractFollowersFromHtml (auto-fetch-instagram 38-52) and
extractFollowersFromProfileHtml (fetch-instagram-data 39-56). -/
def followerJsonPatterns : List (List RTok) :=
  [ [.lit "\"edge_followed_by\"" false, .wsStar, .lit ":" false, .wsStar,
     .lit "\x7b" false, .wsStar, .lit "\"count\"" false, .wsStar, .lit ":" false,
     .wsStar, .capCls (fun c => c.isDigit)],
    [.lit "\"follower_count\"" false, .wsStar, .lit ":" false, .wsStar,
     .capCls (fun c => c.isDigit)],
    [.lit "\"followers\"" false, .wsStar, .lit ":" false, .wsStar,
     .lit "\x7b" false, .wsStar, .lit "\"count\"" false, .wsStar, .lit ":" false,
     .wsStar, .capCls (fun c => c.isDigit)] ]

/-- Pattern loop for the follower-count JSON patterns; the source's
Number.isFinite(n) && n >= 0 check always holds for a digit capture in the
exact model. -/
def extractFollowersGo : List (List RTok) → List Char → Option Nat
  | [], _ => none
  | p :: ps, html =>
    match (searchToks p html).bind List.head? with
    | some ds => some (digitsVal ds)
    | none => extractFollowersGo ps html

/-- Embedding of extractFollowersFromHtml (auto-fetch-instagram 38-52). -/
def extractFollowersFromHtml (html : String) : Option Nat :=
  extractFollowersGo followerJsonPatterns html.data

/-- Embedding of extractFollowersFromProfileHtml (fetch-instagram-data
39-56), textually identical to extractFollowersFromHtml. -/
def extractFollowersFromProfileHtml (html : String) : Option Nat :=
  extractFollowersGo followerJsonPatterns html.data

/-- Model of parseFloat on a [\d.]+ capture: longest valid decimal prefix
(digits, optional dot and fraction digits); NaN when it starts with a
second dot or has no digit. -/
def parseFloatPrefix (cs : List Char) : Option (Nat × Nat) :=
  match cs.drop (cs.takeWhile (fun c => c.isDigit)).length with
  | '.' :: rest2 =>
    if (cs.takeWhile (fun c => c.isDigit)).isEmpty &&
        (rest2.takeWhile (fun c => c.isDigit)).isEmpty then none
    else
      some (digitsVal (cs.takeWhile (fun c => c.isDigit) ++
              rest2.takeWhile (fun c => c.isDigit)),
            10 ^ (rest2.takeWhile (fun c => c.isDigit)).length)
  | _ =>
    if (cs.takeWhile (fun c => c.isDigit)).isEmpty then none
    else some (digitsVal (cs.takeWhile (fun c => c.isDigit)), 1)

/-- Text pattern ([\d,]+)\s*(?:followers|追蹤者) with the /i flag. -/
def followersTextPat1 : List RTok :=
  [.capCls (fun c => c.isDigit || c == ','), .wsStar,
   .alts ["followers", "追蹤者"] true]

/-- Text pattern ([\d.]+)\s*([KkMm])\s*(?:followers|追蹤者) with /i. -/
def followersTextPat2 : List RTok :=
  [.capCls (fun c => c.isDigit || c == '.'), .wsStar, .capOne isKmChar,
   .wsStar, .alts ["followers", "追蹤者"] true]

/-- Suffix half of parseFollowerCount: parseFloat on the mantissa, times
1,000,000 for an M/m suffix and 1,000 otherwise, Math.round-ed. -/
def parseFollowerCountSuffix (text : String) : Option Nat :=
  match searchToks followersTextPat2 text.data with
  | some (m :: suf :: _) =>
    match parseFloatPrefix m with
    | some (num, den) =>
      some (roundHalfUpMul num den
        (if suf.headD ' ' == 'M' || suf.headD ' ' == 'm' then 1000000 else 1000))
    | none => none
  | _ => none

/-- Embedding of parseFollowerCount (fetch-instagram-data 16-36): an exact
"N followers / N 追蹤者" match wins when parseInt of the comma-stripped
capture is a number (a capture of commas only is NaN and falls through);
otherwise the K/M-suffixed text pattern is tried. -/
def parseFollowerCount (text : String) : Option Nat :=
  match (searchToks followersTextPat1 text.data).bind List.head? with
  | some ds =>
    if (ds.filter (fun c => c.isDigit)).isEmpty then parseFollowerCountSuffix text
    else some (digitsVal (ds.filter (fun c => c.isDigit)))
  | none => parseFollowerCountSuffix text

theorem extractPicGo_guard :
    ∀ (ps : List (List RTok)) (html : List Char) (url : String),
      extractPicGo ps html = some url → cdnGuard url.data = true := by
  intro ps
  induction ps with
  | nil => intro html url h; exact absurd h (by simp [extractPicGo])
  | cons p ps ih =>
    intro html url h
    unfold extractPicGo at h
    rcases hm : (searchToks p html).bind List.head? with _ | cap <;> rw [hm] at h
    · exact ih html url h
    · dsimp only at h
      by_cases hg : cdnGuard (jsUnescape cap) = true
      · rw [if_pos hg] at h
        rw [Option.some.injEq] at h
        subst h
        exact hg
      · rw [if_neg hg] at h
        exact ih html url h

/-- C9 amended: a URL returned by the HTML avatar extractor always passes
the source's validation, which accepts the known CDN domains
cdninstagram.com and fbcdn.net but also any URL merely containing the
substring "instagram"; a candidate failing all three checks is not
returned. -/
theorem avatar_cdn_amended (html url : String)
    (h : extractProfilePicFromHtml html = some url) :
    listIncludes "cdninstagram.com".data url.data = true ∨
    listIncludes "fbcdn.net".data url.data = true ∨
    listIncludes "instagram".data url.data = true := by
  have hg := extractPicGo_guard picPatterns html.data url h
  have hg' := by simpa [cdnGuard, Bool.or_eq_true] using hg
  tauto

/-- C9 counterexample: an og:image URL on a foreign host that merely
contains "instagram" in its path is accepted and returned, although it
belongs to neither cdninstagram.com nor fbcdn.net. -/
theorem avatar_cdn_counterexample :
    extractProfilePicFromHtml
        "<meta property=\"og:image\" content=\"https://evil.example/instagram.jpg\">" =
      some "https://evil.example/instagram.jpg" ∧
    listIncludes "cdninstagram.com".data "https://evil.example/instagram.jpg".data = false ∧
    listIncludes "fbcdn.net".data "https://evil.example/instagram.jpg".data = false := by
  refine ⟨by decide, by decide, by decide⟩

theorem avatar_cdn_amended_witness :
    listIncludes "cdninstagram.com".data
        "https://scontent.cdninstagram.com/avatar.jpg".data = true ∨
    listIncludes "fbcdn.net".data
        "https://scontent.cdninstagram.com/avatar.jpg".data = true ∨
    listIncludes "instagram".data
        "https://scontent.cdninstagram.com/avatar.jpg".data = true :=
  avatar_cdn_amended
    "<meta property=\"og:image\" content=\"https://scontent.cdninstagram.com/avatar.jpg\">"
    "https://scontent.cdninstagram.com/avatar.jpg" (by decide)

/-! ## fetch-instagram-data entry point (index.ts 58-331)

The handler is embedded as a pure function of the request and of the
outcome of each network call, taken at the parse boundary: a none outcome
stands for a rejected fetch, a thrown body read or a non-2xx status, all of
which the source treats identically (log and fall through). -/

/-- Scrape payload of a successful Firecrawl response
(data?.html || html || '' and data?.markdown || markdown || ''). -/
structure FcPayload where
  html : String
  markdown : String

/-- Parsed JSON of a successful AI response (the value of the first
balanced-brace substring): the found flag and the followers field as the
string the source coerces it to (none models a missing field, and the
empty string a falsy one). -/
structure AiParsed where
  found : Bool
  followers : Option String

/-- The request and per-strategy network outcomes of one invocation.
webResp and mobileResp carry the follower-count field navigated out of the
profile JSON (none = request failed, some none = response without the
field). -/
structure DataInputs where
  url : Option String
  fcKey : Bool
  fcResp : Option FcPayload
  profileResp : Option String
  webResp : Option (Option Nat)
  mobileResp : Option (Option Nat)
  aiKey : Bool
  ai : Option AiParsed

/-- JSON response body of fetch-instagram-data (only the fields the source
ever emits). -/
structure DataResp where
  success : Bool
  error : Option String
  followersCount : Option String
  methodTag : Option String
  message : Option String
  isEstimate : Option Bool
  triedMethods : Option (List String)
deriving DecidableEq

/-- Success body with count, method and message. -/
def mkSuccessResp (count method msg : String) : DataResp :=
  ⟨true, none, some count, some method, some msg, none, none⟩

/-- Firecrawl success message. -/
def fcMsg : String := "成功透過 Firecrawl 解析獲取資料"

/-- Profile-HTML success message. -/
def htmlMsg : String := "成功透過公開頁面解析獲取資料"

/-- Web/mobile API success message. -/
def apiMsg : String := "成功透過 Instagram API 獲取資料"

/-- AI estimate success message. -/
def aiMsgEstimate : String := "透過 AI 搜尋獲取資料（可能為估算值）"

/-- AI exact success message. -/
def aiMsgExact : String := "成功透過 AI 搜尋獲取資料"

/-- The all-methods-failed error message. -/
def allFailedError : String :=
  "所有方法皆無法獲取 Instagram 資料。建議手動輸入追蹤者數量，或使用官方 Instagram Graph API。"

/-- The all-methods-failed response body (lines 313-321). -/
def allFailedResp : DataResp :=
  ⟨false, some allFailedError, none, none, none, none,
   some ["firecrawl", "profile-html", "web-api", "mobile-api", "ai-search"]⟩

/-- The missing-url error body. -/
def urlRequiredResp : DataResp :=
  ⟨false, some "URL is required", none, none, none, none, none⟩

/-- The unextractable-username error body. -/
def badUrlResp : DataResp :=
  ⟨false, some "無法從 URL 擷取 Instagram 用戶名", none, none, none, none, none⟩

/-- The isEstimate heuristic of the AI branch (lines 283-284):
/[KkMm]$/ on the raw value, or length above 3 and a "00" ending. -/
def aiIsEstimate (fs : String) : Bool :=
  (match fs.data.reverse with
   | c :: _ => isKmChar c
   | [] => false) ||
  (decide (fs.data.length > 3) && ['0', '0'].isSuffixOf fs.data)

/-- Method 1: Firecrawl scrape (lines 85-149). -/
def fcAttempt (inp : DataInputs) : Option DataResp :=
  if inp.fcKey then
    match inp.fcResp with
    | some p =>
      match (if p.html == "" then none else extractFollowersFromProfileHtml p.html) with
      | some n => some (mkSuccessResp (natToStr n) "firecrawl-html" fcMsg)
      | none =>
        match (if p.markdown == "" then none else parseFollowerCount p.markdown) with
        | some n => some (mkSuccessResp (natToStr n) "firecrawl-markdown" fcMsg)
        | none => none
    | none => none
  else none

/-- Method 2: direct profile HTML (lines 151-180). -/
def profileAttempt (inp : DataInputs) : Option DataResp :=
  match inp.profileResp with
  | some html =>
    match extractFollowersFromProfileHtml html with
    | some n => some (mkSuccessResp (natToStr n) "profile-html" htmlMsg)
    | none => none
  | none => none

/-- Method 3: public web API (lines 182-211). -/
def webAttempt (inp : DataInputs) : Option DataResp :=
  match inp.webResp with
  | some (some c) => some (mkSuccessResp (natToStr c) "web-api" apiMsg)
  | _ => none

/-- Method 4: i.instagram.com mobile API (lines 213-242). -/
def mobileAttempt (inp : DataInputs) : Option DataResp :=
  match inp.mobileResp with
  | some (some c) => some (mkSuccessResp (natToStr c) "mobile-api" apiMsg)
  | _ => none

/-- Method 5: single-model AI search (lines 244-311). -/
def aiAttempt (inp : DataInputs) : Option DataResp :=
  if inp.aiKey then
    match inp.ai with
    | some p =>
      match p.followers with
      | some fs =>
        if p.found && !(fs == "") then
          some ⟨true, none, some fs, some "ai-search",
            some (if aiIsEstimate fs then aiMsgEstimate else aiMsgExact),
            some (aiIsEstimate fs), none⟩
        else none
      | none => none
    | none => none
  else none

/-- Embedding of the fetch-instagram-data Deno.serve handler (58-331):
validate the request, extract the handle, then try the five strategies in
order, returning the first success and the aggregate failure body when all
of them fail. -/
def fetchInstagramDataCore (inp : DataInputs) : DataResp :=
  match inp.url with
  | none => urlRequiredResp
  | some u =>
    if u == "" then urlRequiredResp
    else
      match dataGetUsername u with
      | none => badUrlResp
      | some _ =>
        match fcAttempt inp with
        | some r => r
        | none =>
          match profileAttempt inp with
          | some r => r
          | none =>
            match webAttempt inp with
            | some r => r
            | none =>
              match mobileAttempt inp with
              | some r => r
              | none =>
                match aiAttempt inp with
                | some r => r
                | none => allFailedResp

/-- C7: when the request is well-formed but every strategy fails to
produce data, the handler still returns a normal body carrying
success = false, the human-readable failure message and the full list of
the five attempted strategy names; the embedded handler is a total
function, reflecting that no exception escapes the source's catch-alls. -/
theorem all_strategies_exhausted_spec (inp : DataInputs) (u : String)
    (hu : inp.url = some u) (hne : u ≠ "")
    (huser : dataGetUsername u ≠ none)
    (h1 : fcAttempt inp = none) (h2 : profileAttempt inp = none)
    (h3 : webAttempt inp = none) (h4 : mobileAttempt inp = none)
    (h5 : aiAttempt inp = none) :
    fetchInstagramDataCore inp = allFailedResp ∧
    allFailedResp.success = false ∧
    allFailedResp.error = some allFailedError ∧
    allFailedResp.triedMethods =
      some ["firecrawl", "profile-html", "web-api", "mobile-api", "ai-search"] := by
  refine ⟨?_, rfl, rfl, rfl⟩
  unfold fetchInstagramDataCore
  rw [hu]
  dsimp only
  rw [show (u == "") = false from beq_eq_false_iff_ne.mpr hne]
  simp only [Bool.false_eq_true, if_false]
  rcases hus : dataGetUsername u with _ | uname
  · exact absurd hus huser
  · dsimp only
    rw [h1, h2, h3, h4, h5]

/-- Inputs where the URL is valid and every network call fails. -/
def allFailInputs : DataInputs :=
  ⟨some "https://www.instagram.com/nasa", true, none, none, none, none, true, none⟩

theorem all_strategies_exhausted_witness :
    fetchInstagramDataCore allFailInputs = allFailedResp :=
  (all_strategies_exhausted_spec allFailInputs "https://www.instagram.com/nasa"
    rfl (by decide) (by decide) rfl rfl rfl rfl rfl).1

/-! ## auto-fetch-instagram entry point (index.ts 195-283)

The handler accumulates avatarUrl, followersCount and method across the
five strategies; each strategy's network outcome is an input (none models
a thrown attempt, which the source catches and skips). -/

/-- Result record of one extractor attempt (the FetchResult interface). -/
structure FetchRes where
  avatarUrl : Option String
  followersCount : Option Nat
  method : String
deriving DecidableEq

/-- Per-strategy outcomes of one invocation of the auto-fetch handler. -/
structure AutoInputs where
  ua : Option String
  web : Option FetchRes
  html : Option FetchRes
  fcKey : Bool
  fc : Option FetchRes
  aiKey : Bool
  ai : Option ConsensusResult

/-- The three accumulator variables of the handler. -/
structure OrchState where
  avatarUrl : Option String
  followersCount : Option Nat
  method : String
deriving DecidableEq

/-- JavaScript truthiness of a nullable string. -/
def jsTruthyS : Option String → Bool
  | none => false
  | some s => !(s == "")

/-- method accumulation: method === 'none' ? tag : method + '+' + tag. -/
def appendMethod (m tag : String) : String :=
  if m == "none" then tag else m ++ "+" ++ tag

/-- Method 0: unavatar (lines 214-222); sets avatar and method when the
returned value is truthy. -/
def stepUnavatar (ua : Option String) (st : OrchState) : OrchState :=
  if jsTruthyS ua then { st with avatarUrl := ua, method := "unavatar" }
  else st

/-- Method 1: web API (lines 224-230); avatar first-writer-wins, follower
count overwritten when present, and the web-api tag appended only when the
accumulated follower count is non-null afterwards. -/
def stepWebApi (web : Option FetchRes) (st : OrchState) : OrchState :=
  match web with
  | none => st
  | some r =>
    let a := if !(jsTruthyS st.avatarUrl) && jsTruthyS r.avatarUrl
             then r.avatarUrl else st.avatarUrl
    let f := if r.followersCount.isSome then r.followersCount
             else st.followersCount
    let m := if f.isSome then appendMethod st.method "web-api" else st.method
    ⟨a, f, m⟩

/-- Methods 2 and 3 share this shape: guarded by missing data, merge both
fields first-writer-wins, and tag the method when any data is present
afterwards (lines 232-251). -/
def stepFill (tag : String) (r? : Option FetchRes) (st : OrchState) : OrchState :=
  if !(jsTruthyS st.avatarUrl) || st.followersCount.isNone then
    match r? with
    | none => st
    | some r =>
      let a := if !(jsTruthyS st.avatarUrl) && jsTruthyS r.avatarUrl
               then r.avatarUrl else st.avatarUrl
      let f := if st.followersCount.isNone && r.followersCount.isSome
               then r.followersCount else st.followersCount
      let m := if jsTruthyS a || f.isSome then appendMethod st.method tag
               else st.method
      ⟨a, f, m⟩
  else st

/-- Method 3 additionally requires the Firecrawl key. -/
def stepFirecrawl (key : Bool) (fc : Option FetchRes) (st : OrchState) : OrchState :=
  if key then stepFill "firecrawl" fc st else st

/-- Method 4: AI consensus (lines 253-263), consulted only when no prior
strategy yielded a count; the value is accepted only with confidence
"high" and 0 < v < 100,000,000, and the method tag is "ai-consensus" when
nothing contributed before and "+ai" otherwise. -/
def stepAi (key : Bool) (ai : Option ConsensusResult) (st : OrchState) : OrchState :=
  if st.followersCount.isNone && key then
    match ai with
    | none => st
    | some c =>
      match c.followersCount with
      | some v =>
        if c.confidence == "high" && decide (0 < v) && decide (v < 100000000) then
          ⟨st.avatarUrl, some v,
           if st.method == "none" then "ai-consensus" else st.method ++ "+ai"⟩
        else st
      | none => st
  else st

/-- Embedding of the strategy cascade of the auto-fetch handler
(lines 210-263). -/
def orchestrateCore (inp : AutoInputs) : OrchState :=
  stepAi inp.aiKey inp.ai
    (stepFirecrawl inp.fcKey inp.fc
      (stepFill "html" inp.html
        (stepWebApi inp.web
          (stepUnavatar inp.ua ⟨none, none, "none"⟩))))

/-- JSON values occurring in the auto-fetch response body. -/
inductive JVal where
  | jnull
  | jbool (b : Bool)
  | jstr (s : String)
deriving DecidableEq

/-- The success response body of the auto-fetch handler (lines 267-274),
as the ordered key-value pairs of the serialized JSON object. -/
def autoFetchBody (inp : AutoInputs) : List (String × JVal) :=
  [("success", .jbool true),
   ("avatarUrl",
     match (orchestrateCore inp).avatarUrl with
     | some s => .jstr s
     | none => .jnull),
   ("followersCount",
     match (orchestrateCore inp).followersCount with
     | some n => .jstr (natToStr n)
     | none => .jnull),
   ("method", .jstr (orchestrateCore inp).method)]

theorem stepUnavatar_followers (ua : Option String) (st : OrchState) :
    (stepUnavatar ua st).followersCount = st.followersCount := by
  unfold stepUnavatar
  split <;> rfl

theorem stepWebApi_followers_none {web : Option FetchRes} {st : OrchState}
    (hw : web = none ∨ ∃ r, web = some r ∧ r.followersCount = none)
    (hst : st.followersCount = none) :
    (stepWebApi web st).followersCount = none := by
  rcases hw with rfl | ⟨r, rfl, hr⟩
  · exact hst
  · unfold stepWebApi
    simp [hr, hst]

theorem stepFill_followers_none {tag : String} {r? : Option FetchRes}
    {st : OrchState}
    (hw : r? = none ∨ ∃ r, r? = some r ∧ r.followersCount = none)
    (hst : st.followersCount = none) :
    (stepFill tag r? st).followersCount = none := by
  unfold stepFill
  split
  · rcases hw with rfl | ⟨r, rfl, hr⟩
    · exact hst
    · simp [hr, hst]
  · exact hst

theorem stepFirecrawl_followers_none {key : Bool} {fc : Option FetchRes}
    {st : OrchState}
    (hw : fc = none ∨ ∃ r, fc = some r ∧ r.followersCount = none)
    (hst : st.followersCount = none) :
    (stepFirecrawl key fc st).followersCount = none := by
  unfold stepFirecrawl
  split
  · exact stepFill_followers_none hw hst
  · exact hst

theorem stepAi_followers_char {key : Bool} {ai : Option ConsensusResult}
    {st : OrchState} {c : ConsensusResult}
    (hst : st.followersCount = none) (hkey : key = true) (hai : ai = some c) :
    (stepAi key ai st).followersCount =
      match c.followersCount with
      | some v =>
        if c.confidence == "high" && decide (0 < v) && decide (v < 100000000)
        then some v else none
      | none => none := by
  unfold stepAi
  rw [hkey, hai]
  rcases hcf : c.followersCount with _ | v
  · simp [hst, hcf]
  · by_cases hb : (c.confidence == "high" && decide (0 < v) &&
        decide (v < 100000000)) = true
    · simp [hb, hst, hcf]
    · simp [hb, hst, hcf]

/-- C10: with no prior strategy yielding a follower count and the AI key
configured, the orchestrator incorporates the AI-consensus value into the
response exactly when the consensus confidence is "high" and the value is
strictly between 0 and 100,000,000; any low-confidence or out-of-range
value is discarded and the response's followersCount field stays null. -/
theorem ai_acceptance_spec (inp : AutoInputs) (c : ConsensusResult)
    (hkey : inp.aiKey = true) (hai : inp.ai = some c)
    (hweb : inp.web = none ∨ ∃ r, inp.web = some r ∧ r.followersCount = none)
    (hhtml : inp.html = none ∨ ∃ r, inp.html = some r ∧ r.followersCount = none)
    (hfc : inp.fc = none ∨ ∃ r, inp.fc = some r ∧ r.followersCount = none) :
    ((orchestrateCore inp).followersCount =
      match c.followersCount with
      | some v =>
        if c.confidence = "high" ∧ 0 < v ∧ v < 100000000 then some v else none
      | none => none) ∧
    ((orchestrateCore inp).followersCount = none →
      (autoFetchBody inp).lookup "followersCount" = some JVal.jnull) := by
  have hpre :
      (stepFirecrawl inp.fcKey inp.fc
        (stepFill "html" inp.html
          (stepWebApi inp.web
            (stepUnavatar inp.ua ⟨none, none, "none"⟩)))).followersCount = none := by
    refine stepFirecrawl_followers_none hfc ?_
    refine stepFill_followers_none hhtml ?_
    refine stepWebApi_followers_none hweb ?_
    rw [stepUnavatar_followers]
  constructor
  · unfold orchestrateCore
    rw [stepAi_followers_char hpre hkey hai]
    rcases c.followersCount with _ | v
    · rfl
    · dsimp only
      by_cases hacc : c.confidence = "high" ∧ 0 < v ∧ v < 100000000
      · rw [if_pos hacc,
          if_pos (by obtain ⟨h1, h2, h3⟩ := hacc; simp [h1, h2, h3])]
      · rw [if_neg hacc]
        have hb : (c.confidence == "high" && decide (0 < v) &&
            decide (v < 100000000)) = false := by
          rcases Decidable.not_and_iff_or_not.mp hacc with h1 | h23
          · simp [h1]
          · rcases Decidable.not_and_iff_or_not.mp h23 with h2 | h3
            · simp [h2]
            · simp [h3]
        rw [hb]
        simp only [Bool.false_eq_true, if_false]
  · intro hnone
    unfold autoFetchBody
    rw [hnone]
    rfl

/-- Inputs where every prior strategy fails and the AI consensus is
low-confidence. -/
def c10Inputs : AutoInputs :=
  { ua := none, web := none, html := none, fcKey := false, fc := none,
    aiKey := true,
    ai := some { followersCount := some 5000, confidence := "low" } }

theorem ai_acceptance_spec_witness :
    (orchestrateCore c10Inputs).followersCount = none ∧
    (autoFetchBody c10Inputs).lookup "followersCount" = some JVal.jnull := by
  have h := ai_acceptance_spec c10Inputs
    { followersCount := some 5000, confidence := "low" }
    rfl rfl (Or.inl rfl) (Or.inl rfl) (Or.inl rfl)
  have h1 : (orchestrateCore c10Inputs).followersCount = none := by
    rw [h.1]; decide
  exact ⟨h1, h.2 h1⟩

/-- Inputs of the end-to-end AI-consensus scenario: every network extractor
fails and two models agree within tolerance at 50000 and 50500 (the third
model fails). -/
def c8Inputs : AutoInputs :=
  { ua := none, web := none, html := none, fcKey := false, fc := none,
    aiKey := true,
    ai := some (tryAiConsensusResolve [some 50000, some 50500, none]) }

/-- C8 counterexample: in the scenario of the claim the serialized response
body has no "confidence" key at all — the consensus confidence never
leaves the handler — although followersCount and method are as claimed. -/
theorem confidence_marker_counterexample :
    (autoFetchBody c8Inputs).lookup "confidence" = none ∧
    (autoFetchBody c8Inputs).lookup "followersCount" = some (JVal.jstr "50250") ∧
    (autoFetchBody c8Inputs).lookup "method" = some (JVal.jstr "ai-consensus") := by
  refine ⟨by decide, by decide, by decide⟩

/-- C8 amended: with all network extractors failing and two models agreeing
within tolerance at 50000 and 50500, the response carries
followersCount "50250" and method "ai-consensus", but no confidence field:
the confidence marker is only used internally to gate acceptance of the
consensus value and is not part of the response. -/
theorem confidence_marker_amended :
    autoFetchBody c8Inputs =
      [("success", JVal.jbool true), ("avatarUrl", JVal.jnull),
       ("followersCount", JVal.jstr "50250"),
       ("method", JVal.jstr "ai-consensus")] ∧
    tryAiConsensusResolve [some 50000, some 50500, none] =
      { followersCount := some 50250, confidence := "high" } := by
  refine ⟨by decide, by decide⟩

theorem stepWebApi_avatar_keep {web : Option FetchRes} {st : OrchState}
    (h : jsTruthyS st.avatarUrl = true) :
    (stepWebApi web st).avatarUrl = st.avatarUrl := by
  unfold stepWebApi
  rcases web with _ | r
  · rfl
  · simp [h]

theorem stepFill_avatar_keep {tag : String} {r? : Option FetchRes}
    {st : OrchState} (h : jsTruthyS st.avatarUrl = true) :
    (stepFill tag r? st).avatarUrl = st.avatarUrl := by
  unfold stepFill
  split
  · rcases r? with _ | r
    · rfl
    · simp [h]
  · rfl

theorem stepFirecrawl_avatar_keep {key : Bool} {fc : Option FetchRes}
    {st : OrchState} (h : jsTruthyS st.avatarUrl = true) :
    (stepFirecrawl key fc st).avatarUrl = st.avatarUrl := by
  unfold stepFirecrawl
  split
  · exact stepFill_avatar_keep h
  · rfl

theorem stepAi_avatar (key : Bool) (ai : Option ConsensusResult)
    (st : OrchState) : (stepAi key ai st).avatarUrl = st.avatarUrl := by
  unfold stepAi
  split
  · rcases ai with _ | c
    · rfl
    · dsimp only
      rcases c.followersCount with _ | v
      · rfl
      · dsimp only
        split <;> rfl
  · rfl

/-- The ten scenario families of the merge claim: an extractor yields only
the avatar, a strictly later one yields only the follower count, and every
other attempt fails (is thrown). Indices: 0 unavatar/web-api, 1
unavatar/html, 2 unavatar/firecrawl, 3 unavatar/ai, 4 html/firecrawl, 5
html/ai, 6 firecrawl/ai, 7 web-api/html, 8 web-api/firecrawl,
9 web-api/ai. -/
def scenarioC2 (k : Nat) (avatar : String) (f : Nat) : AutoInputs :=
  match k with
  | 0 => ⟨some avatar, some ⟨none, some f, "web-api"⟩, none, true, none, true, none⟩
  | 1 => ⟨some avatar, none, some ⟨none, some f, "html"⟩, true, none, true, none⟩
  | 2 => ⟨some avatar, none, none, true, some ⟨none, some f, "firecrawl"⟩, true, none⟩
  | 3 => ⟨some avatar, none, none, true, none, true, some ⟨some f, "high"⟩⟩
  | 4 => ⟨none, none, some ⟨some avatar, none, "html"⟩, true,
          some ⟨none, some f, "firecrawl"⟩, true, none⟩
  | 5 => ⟨none, none, some ⟨some avatar, none, "html"⟩, true, none, true,
          some ⟨some f, "high"⟩⟩
  | 6 => ⟨none, none, none, true, some ⟨some avatar, none, "firecrawl"⟩, true,
          some ⟨some f, "high"⟩⟩
  | 7 => ⟨none, some ⟨some avatar, none, "web-api"⟩, some ⟨none, some f, "html"⟩,
          true, none, true, none⟩
  | 8 => ⟨none, some ⟨some avatar, none, "web-api"⟩, none, true,
          some ⟨none, some f, "firecrawl"⟩, true, none⟩
  | _ => ⟨none, some ⟨some avatar, none, "web-api"⟩, none, true, none, true,
          some ⟨some f, "high"⟩⟩

/-- The method string the handler produces in each scenario. -/
def expectedMethodC2 (k : Nat) : String :=
  match k with
  | 0 => "unavatar+web-api"
  | 1 => "unavatar+html"
  | 2 => "unavatar+firecrawl"
  | 3 => "unavatar+ai"
  | 4 => "html+firecrawl"
  | 5 => "html+ai"
  | 6 => "firecrawl+ai"
  | 7 => "html"
  | 8 => "firecrawl"
  | _ => "ai-consensus"

/-- The method tags of the two contributing strategies per scenario (the
AI path is tagged "ai" when appended and "ai-consensus" when alone). -/
def scenarioTags : Nat → String × String
  | 0 => ("unavatar", "web-api")
  | 1 => ("unavatar", "html")
  | 2 => ("unavatar", "firecrawl")
  | 3 => ("unavatar", "ai")
  | 4 => ("html", "firecrawl")
  | 5 => ("html", "ai")
  | 6 => ("firecrawl", "ai")
  | 7 => ("web-api", "html")
  | 8 => ("web-api", "firecrawl")
  | _ => ("web-api", "ai-consensus")

/-- C2 counterexample: when the web-api strategy yields only the avatar and
the HTML strategy later yields only the follower count, the final result
has both fields but its method string is just "html": the web-api tag is
appended only when a follower count is present, so the avatar contributor
is not recorded. -/
theorem orchestrator_merge_counterexample :
    orchestrateCore (scenarioC2 7 "https://a.example/pic.jpg" 9094) =
      ⟨some "https://a.example/pic.jpg", some 9094, "html"⟩ ∧
    listIncludes "web-api".data "html".data = false := by
  refine ⟨by decide, by decide⟩

/-- C2 amended: whenever one extractor yields only the avatar and a later
one yields only the follower count (all other attempts failing, the AI
value in range), the final result carries both fields and keeps the
first-obtained avatar; the method string joins the two contributing tags
with "+" except when the avatar-only extractor is web-api, whose tag is
dropped (scenarios 7-9), the AI tag being "ai" when appended and
"ai-consensus" when it is the sole contributor. The second conjunct is the
general first-writer-wins property for the unavatar avatar. -/
theorem orchestrator_merge_amended :
    (∀ (k : Nat) (A : String) (F : Nat), k < 10 → A ≠ "" → 0 < F →
      F < 100000000 →
      orchestrateCore (scenarioC2 k A F) = ⟨some A, some F, expectedMethodC2 k⟩) ∧
    (∀ (inp : AutoInputs) (u : String), inp.ua = some u → u ≠ "" →
      (orchestrateCore inp).avatarUrl = some u) ∧
    (∀ k : Nat, k < 10 →
      (k < 7 → expectedMethodC2 k =
        (scenarioTags k).1 ++ "+" ++ (scenarioTags k).2 ∧
        listIncludes (scenarioTags k).1.data (expectedMethodC2 k).data = true ∧
        listIncludes (scenarioTags k).2.data (expectedMethodC2 k).data = true) ∧
      (7 ≤ k → listIncludes "web-api".data (expectedMethodC2 k).data = false ∧
        listIncludes (scenarioTags k).2.data (expectedMethodC2 k).data = true)) := by
  refine ⟨?_, ?_, ?_⟩
  · intro k A F hk hA hF1 hF2
    have hA' : (A == "") = false := beq_eq_false_iff_ne.mpr hA
    have hF1' : decide (0 < F) = true := decide_eq_true hF1
    have hF2' : decide (F < 100000000) = true := decide_eq_true hF2
    interval_cases k <;>
      simp [scenarioC2, expectedMethodC2, orchestrateCore, stepUnavatar,
        stepWebApi, stepFill, stepFirecrawl, stepAi, jsTruthyS, appendMethod,
        hA', hF1', hF2']
  · intro inp u hu hne
    have htr : jsTruthyS (some u) = true := by
      simp [jsTruthyS, beq_eq_false_iff_ne.mpr hne]
    have h0 : (stepUnavatar inp.ua ⟨none, none, "none"⟩).avatarUrl = some u := by
      unfold stepUnavatar
      rw [hu, if_pos htr]
    have h0t : jsTruthyS (stepUnavatar inp.ua
        ⟨none, none, "none"⟩).avatarUrl = true := by rw [h0]; exact htr
    have h1 := @stepWebApi_avatar_keep inp.web _ h0t
    have h1t : jsTruthyS ((stepWebApi inp.web (stepUnavatar inp.ua
        ⟨none, none, "none"⟩)).avatarUrl) = true := by rw [h1]; exact h0t
    have h2 := @stepFill_avatar_keep "html" inp.html _ h1t
    have h2t : jsTruthyS ((stepFill "html" inp.html (stepWebApi inp.web
        (stepUnavatar inp.ua ⟨none, none, "none"⟩))).avatarUrl) = true := by
      rw [h2]; exact h1t
    have h3 := @stepFirecrawl_avatar_keep inp.fcKey inp.fc _ h2t
    unfold orchestrateCore
    rw [stepAi_avatar, h3, h2, h1, h0]
  · intro k hk
    refine ⟨fun h7 => ?_, fun h7 => ?_⟩ <;>
      interval_cases k <;> first | exact absurd h7 (by omega) | decide

theorem orchestrator_merge_amended_witness :
    orchestrateCore (scenarioC2 0 "https://cdn.example/a.jpg" 9094) =
      ⟨some "https://cdn.example/a.jpg", some 9094, "unavatar+web-api"⟩ :=
  orchestrator_merge_amended.1 0 "https://cdn.example/a.jpg" 9094 (by norm_num)
    (by decide) (by norm_num) (by norm_num)
